import Mathlib

/-!
# Verification of the geospatial feature engine (`src/features/feature_engineer.py`)

Shallow embedding of `FeatureEngineer` from the rental-price feature
pipeline, together with theorems settling the specification claims about
distance features, density features, grid aggregation, accessibility and
transport scores, configuration handling and the frame conditions of the
full pipeline.

Conventions of the embedding:
* float columns of the data frame are modelled by exact numbers (`ℚ` for
  coordinate/price data that the code only compares and adds, `ℝ` for
  values produced by transcendental distance math);
* a missing value (`NaN` used as "null" by the code) is `Option.none`;
* a POI category (`gpd.GeoDataFrame`) is a `List GeoPoint`; the `pois`
  dict is an association list in insertion order;
* `sklearn.neighbors.BallTree(coords, metric='haversine')` with
  `tree.query(x, k=1)` returns the minimum of the haversine metric over
  the indexed points, and `tree.query_radius(x, r, count_only=True)`
  returns the number of indexed points within distance `r` (boundary
  inclusive); the embedding uses those documented contracts directly.
-/

namespace AluguelSeBr

/-- A geographic point: `latitude` and `longitude` columns, in degrees. -/
structure GeoPoint where
  lat : ℚ
  lon : ℚ
deriving DecidableEq, Repr

/-- `np.radians`: degrees to radians. -/
noncomputable def degToRad (x : ℚ) : ℝ := (x : ℝ) * Real.pi / 180

/-- The haversine metric of `BallTree(..., metric='haversine')` on a unit
sphere, applied to coordinates already converted to radians:
`2 * arcsin(sqrt(sin²(Δφ/2) + cos φ₁ · cos φ₂ · sin²(Δλ/2)))`. -/
noncomputable def havDistUnit (p q : GeoPoint) : ℝ :=
  2 * Real.arcsin (Real.sqrt
    (Real.sin ((degToRad q.lat - degToRad p.lat) / 2) ^ 2 +
      Real.cos (degToRad p.lat) * Real.cos (degToRad q.lat) *
        Real.sin ((degToRad q.lon - degToRad p.lon) / 2) ^ 2))

/-- Great-circle distance in kilometres with Earth radius 6371 km: the
code's `distances.flatten() * 6371` applied to one haversine value. -/
noncomputable def haversineKm (p q : GeoPoint) : ℝ := havDistUnit p q * 6371

/-- `tree.query(property_coords, k=1)` on a `BallTree` built from `pois`:
the minimum unit-sphere haversine distance from `p` to the indexed points.
The `[]` case is never used by the caller (`calculate_distances` branches
on `len(poi_gdf) == 0` first). -/
noncomputable def ballTreeNearest (p : GeoPoint) : List GeoPoint → ℝ
  | [] => 0
  | q :: qs => qs.foldl (fun acc t => min acc (havDistUnit p t)) (havDistUnit p q)

/-- One category's distance feature for one property, from
`FeatureEngineer.calculate_distances`: `NaN` (`none`) for an empty
category; otherwise the nearest-POI distance in km, replaced by `NaN`
when it exceeds `distance_threshold_km`
(`distances_km[distances_km > self.distance_threshold_km] = np.nan`). -/
noncomputable def distanceFeature (threshold : ℝ) (pois : List GeoPoint)
    (p : GeoPoint) : Option ℝ :=
  if pois.isEmpty then none
  else
    let dKm := ballTreeNearest p pois * 6371
    if threshold < dKm then none else some dKm

/-- One category's density feature for one property, from
`FeatureEngineer.calculate_densities`: `0` for an empty category,
otherwise `tree.query_radius(property_coords, r=radius_km/6371,
count_only=True)` — the number of POIs whose unit-sphere haversine
distance is at most the radius in radians. -/
noncomputable def densityCount (radiusKm : ℝ) (pois : List GeoPoint)
    (p : GeoPoint) : ℕ :=
  if pois.isEmpty then 0
  else pois.countP (fun q => decide (havDistUnit p q ≤ radiusKm / 6371))

/-! ## Helper lemmas: folded minima -/

theorem foldl_min_le_init (f : GeoPoint → ℝ) (l : List GeoPoint) (a : ℝ) :
    l.foldl (fun acc t => min acc (f t)) a ≤ a := by
  induction l generalizing a with
  | nil => exact le_rfl
  | cons x xs ih =>
      exact le_trans (ih (min a (f x))) (min_le_left _ _)

theorem foldl_min_le_mem (f : GeoPoint → ℝ) (l : List GeoPoint) (a : ℝ)
    (x : GeoPoint) (hx : x ∈ l) :
    l.foldl (fun acc t => min acc (f t)) a ≤ f x := by
  induction l generalizing a with
  | nil => cases hx
  | cons y ys ih =>
      rcases List.mem_cons.mp hx with h | h
      · subst h
        exact le_trans (foldl_min_le_init f ys (min a (f x))) (min_le_right _ _)
      · exact ih (min a (f y)) h

theorem foldl_min_eq_init_or_mem (f : GeoPoint → ℝ) (l : List GeoPoint) (a : ℝ) :
    l.foldl (fun acc t => min acc (f t)) a = a ∨
      ∃ x ∈ l, l.foldl (fun acc t => min acc (f t)) a = f x := by
  induction l generalizing a with
  | nil => exact Or.inl rfl
  | cons y ys ih =>
      rcases ih (min a (f y)) with h | ⟨x, hx, hfx⟩
      · rcases min_cases a (f y) with ⟨hm, _⟩ | ⟨hm, _⟩
        · exact Or.inl (by simpa [hm] using h)
        · exact Or.inr ⟨y, List.mem_cons_self y ys, by simpa [hm] using h⟩
      · exact Or.inr ⟨x, List.mem_cons_of_mem y hx, hfx⟩

theorem ballTreeNearest_mem (p : GeoPoint) (q : GeoPoint) (qs : List GeoPoint) :
    ∃ x ∈ q :: qs, ballTreeNearest p (q :: qs) = havDistUnit p x := by
  rcases foldl_min_eq_init_or_mem (havDistUnit p) qs (havDistUnit p q) with h | ⟨x, hx, hfx⟩
  · exact ⟨q, List.mem_cons_self q qs, h⟩
  · exact ⟨x, List.mem_cons_of_mem q hx, hfx⟩

theorem ballTreeNearest_le (p : GeoPoint) (q : GeoPoint) (qs : List GeoPoint)
    (x : GeoPoint) (hx : x ∈ q :: qs) :
    ballTreeNearest p (q :: qs) ≤ havDistUnit p x := by
  rcases List.mem_cons.mp hx with h | h
  · subst h
    exact foldl_min_le_init (havDistUnit p) qs (havDistUnit p x)
  · exact foldl_min_le_mem (havDistUnit p) qs (havDistUnit p q) x h

/-! ## C1: distance features -/

/-- C1: for every property `p` and non-empty POI category `pois`, the
distance feature equals the minimum haversine distance (Earth radius
6371 km) from `p` to any POI of the category when that minimum does not
exceed `threshold`, and is `none` when the minimum exceeds the
threshold; for an empty category it is `none` (and, being a total
function, the computation raises no exception). -/
theorem C1_distance_feature (T : ℝ) (pois : List GeoPoint) (p : GeoPoint) :
    (pois = [] → distanceFeature T pois p = none) ∧
    (pois ≠ [] → ∃ m, m ∈ pois.map (haversineKm p) ∧
      (∀ d ∈ pois.map (haversineKm p), m ≤ d) ∧
      (m ≤ T → distanceFeature T pois p = some m) ∧
      (T < m → distanceFeature T pois p = none)) := by
  constructor
  · rintro rfl
    simp [distanceFeature]
  · intro hne
    match pois with
    | [] => exact absurd rfl hne
    | q :: qs =>
        refine ⟨ballTreeNearest p (q :: qs) * 6371, ?_, ?_, ?_, ?_⟩
        · rcases ballTreeNearest_mem p q qs with ⟨x, hx, hfx⟩
          exact List.mem_map.mpr ⟨x, hx, by rw [haversineKm, hfx]⟩
        · intro d hd
          rcases List.mem_map.mp hd with ⟨x, hx, rfl⟩
          have := ballTreeNearest_le p q qs x hx
          rw [haversineKm]
          nlinarith
        · intro hle
          rw [distanceFeature]
          simp only [List.isEmpty_cons, if_false, Bool.false_eq_true]
          rw [if_neg (not_lt.mpr hle)]
        · intro hgt
          rw [distanceFeature]
          simp only [List.isEmpty_cons, if_false, Bool.false_eq_true]
          rw [if_pos hgt]

/-! ## C2: density features -/

/-- C2: for every property `p` and POI category `pois`, the density
feature equals the exact number of POIs whose haversine distance to `p`
is at most `radiusKm` (boundary inclusive); for an empty category the
count is `0` — a number, never `none`. -/
theorem C2_density_feature (radiusKm : ℝ) (pois : List GeoPoint) (p : GeoPoint) :
    densityCount radiusKm pois p
        = pois.countP (fun q => decide (haversineKm p q ≤ radiusKm)) ∧
      densityCount radiusKm [] p = 0 := by
  refine ⟨?_, rfl⟩
  rw [densityCount]
  match pois with
  | [] => simp
  | q :: qs =>
      simp only [List.isEmpty_cons, if_false, Bool.false_eq_true]
      refine List.countP_congr ?_
      intro x _
      simp only [decide_eq_true_eq]
      rw [haversineKm]
      constructor
      · intro h
        have h6 : (0:ℝ) < 6371 := by norm_num
        calc havDistUnit p x * 6371 ≤ radiusKm / 6371 * 6371 := by nlinarith
          _ = radiusKm := by field_simp
      · intro h
        rw [le_div_iff₀ (by norm_num : (0:ℝ) < 6371)]
        exact h

/-! ## Accessibility and transport scores (`create_accessibility_scores`) -/

/-- `np.nan_to_num(distances, nan=self.distance_threshold_km)` on one
row of the `dist_nearest_*` columns. -/
noncomputable def fillDistances (threshold : ℝ) (dists : List (Option ℝ)) : List ℝ :=
  dists.map (fun d => d.getD threshold)

/-- Arithmetic mean of a list (`np.nanmean` on a row in which no NaN is
left after `nan_to_num`). -/
noncomputable def listMean (l : List ℝ) : ℝ := l.sum / l.length

open Classical in
/-- The `accessibility_score` value computed for one row:
`valid_distances = distances_filled > 0`;
`avg = np.where(valid_distances.any(axis=1), np.nanmean(distances_filled,
axis=1), threshold)`; score `1 / (avg + 0.1)`. -/
noncomputable def accessibilityVal (T : ℝ) (dists : List (Option ℝ)) : ℝ :=
  let filled := fillDistances T dists
  let avg := if ∃ x ∈ filled, 0 < x then listMean filled else T
  1 / (avg + 0.1)

/-- `create_accessibility_scores` restricted to one row's
`accessibility_score` output: when the table has no `dist_nearest_*`
column at all (`if not distance_cols`), the method returns the table
unchanged, so no score exists (`none`); otherwise the score is added. -/
noncomputable def accessibilityScore (T : ℝ) (dists : List (Option ℝ)) : Option ℝ :=
  if dists.isEmpty then none else some (accessibilityVal T dists)

/-- The `transport_score` of one row. The outer `Option` is presence of
the `dist_nearest_subway_km` column (`if subway_col in df.columns`), the
inner one the row's value: present column gives
`1 / (subway_distance.fillna(threshold) + 0.1)`, absent column gives `0`. -/
noncomputable def transportScore (T : ℝ) (subway : Option (Option ℝ)) : ℝ :=
  match subway with
  | none => 0
  | some d => 1 / (d.getD T + 0.1)

/-! ## C3: accessibility score -/

theorem accessVal_of_pos (T : ℝ) (dists : List (Option ℝ))
    (h : ∃ x ∈ fillDistances T dists, 0 < x) :
    accessibilityVal T dists = 1 / (listMean (fillDistances T dists) + 0.1) := by
  simp only [accessibilityVal]
  rw [if_pos h]

theorem accessVal_of_nonpos (T : ℝ) (dists : List (Option ℝ))
    (h : ¬ ∃ x ∈ fillDistances T dists, 0 < x) :
    accessibilityVal T dists = 1 / (T + 0.1) := by
  simp only [accessibilityVal]
  rw [if_neg h]

/-- C3 counterexample: for one distance column whose value is exactly
`0` (property at the POI), the code takes the `np.where` fallback branch
(no strictly positive filled distance), so the score is
`1 / (threshold + 0.1)`, not the claimed `1 / (mean + 0.1) = 1 / 0.1`;
and for a table with no distance columns at all no score is produced,
while the claim says the score is still produced. -/
theorem C3_counterexample :
    accessibilityScore 10 [some 0] = some (1 / ((10:ℝ) + 0.1)) ∧
    1 / ((10:ℝ) + 0.1) ≠ 1 / (listMean (fillDistances 10 [some 0]) + 0.1) ∧
    accessibilityScore 10 [] = none := by
  have hfill : fillDistances 10 [some (0:ℝ)] = [0] := by
    simp [fillDistances]
  have hnoex : ¬ ∃ x ∈ fillDistances 10 [some (0:ℝ)], 0 < x := by
    rw [hfill]
    rintro ⟨x, hx, hpos⟩
    simp only [List.mem_singleton] at hx
    subst hx
    exact lt_irrefl 0 hpos
  refine ⟨?_, ?_, by simp [accessibilityScore]⟩
  · rw [accessibilityScore]
    simp only [List.isEmpty_cons, if_false, Bool.false_eq_true]
    rw [accessVal_of_nonpos 10 [some (0:ℝ)] hnoex]
  · rw [hfill]
    have hm : listMean [(0:ℝ)] = 0 := by simp [listMean]
    rw [hm]
    norm_num

/-- C3 (amended): for every property the score is
`1 / (avg + 0.1)` where `avg` is the mean of the distance columns with
null entries replaced by the threshold — except that when no filled
distance is strictly positive (all distances exactly `0`) the code
substitutes the threshold itself for the mean; and for a table with no
distance columns at all, no accessibility score is produced. -/
theorem C3_accessibility (T : ℝ) (dists : List (Option ℝ)) :
    (dists = [] → accessibilityScore T dists = none) ∧
    ((∃ x ∈ fillDistances T dists, 0 < x) → dists ≠ [] →
      accessibilityScore T dists
        = some (1 / (listMean (fillDistances T dists) + 0.1))) ∧
    ((∀ x ∈ fillDistances T dists, ¬ 0 < x) → dists ≠ [] →
      accessibilityScore T dists = some (1 / (T + 0.1))) := by
  refine ⟨?_, ?_, ?_⟩
  · rintro rfl
    simp [accessibilityScore]
  · intro hex hne
    rw [accessibilityScore, if_neg (by simpa using hne),
      accessVal_of_pos T dists hex]
  · intro hall hne
    rw [accessibilityScore, if_neg (by simpa using hne),
      accessVal_of_nonpos T dists (by rintro ⟨x, hx, hpos⟩; exact hall x hx hpos)]

/-- Witness for C3: a concrete row with one distance of 2 km and one
null distance under threshold 10 gets score `1 / (mean [2, 10] + 0.1)`. -/
theorem C3_accessibility_witness :
    (∃ x ∈ fillDistances 10 [some (2:ℝ), none], 0 < x) ∧
    ([some (2:ℝ), none] ≠ ([] : List (Option ℝ))) ∧
    accessibilityScore 10 [some (2:ℝ), none]
      = some (1 / (listMean (fillDistances 10 [some (2:ℝ), none]) + 0.1)) := by
  have hex : ∃ x ∈ fillDistances 10 [some (2:ℝ), none], 0 < x := by
    refine ⟨2, ?_, by norm_num⟩
    simp [fillDistances]
  have hne : [some (2:ℝ), none] ≠ ([] : List (Option ℝ)) := by simp
  exact ⟨hex, hne, (C3_accessibility 10 [some (2:ℝ), none]).2.1 hex hne⟩

/-! ## C6: transport score -/

/-- C6: for every property, `transport_score` is `1 / (d + 0.1)` where
`d` is the subway distance with the threshold substituted when the
distance is null, and `0` when the `dist_nearest_subway_km` column does
not exist; in particular a property at the exact coordinates of the only
subway POI (threshold 10 km) gets distance feature `some 0` and
transport score `1 / 0.1 = 10`. -/
theorem C6_transport_score (T d : ℝ) :
    transportScore T none = 0 ∧
    transportScore T (some none) = 1 / (T + 0.1) ∧
    transportScore T (some (some d)) = 1 / (d + 0.1) ∧
    distanceFeature 10 [⟨-23.5505, -46.6333⟩] ⟨-23.5505, -46.6333⟩ = some 0 ∧
    transportScore 10
      (some (distanceFeature 10 [⟨-23.5505, -46.6333⟩] ⟨-23.5505, -46.6333⟩)) = 10 := by
  have hself : havDistUnit ⟨-23.5505, -46.6333⟩ ⟨-23.5505, -46.6333⟩ = 0 := by
    simp [havDistUnit]
  have hfeat : distanceFeature 10 [⟨-23.5505, -46.6333⟩] ⟨-23.5505, -46.6333⟩
      = some 0 := by
    rw [distanceFeature]
    simp only [List.isEmpty_cons, if_false, Bool.false_eq_true]
    rw [ballTreeNearest, hself]
    norm_num
  refine ⟨rfl, rfl, rfl, hfeat, ?_⟩
  rw [hfeat]
  show 1 / ((0:ℝ) + 0.1) = 10
  norm_num

/-! ## Grid features (`create_grid_features`) -/

/-- One row of the property table with the columns `create_grid_features`
reads: coordinates, `price`, `bedrooms`, `bathrooms`. -/
structure PropRow where
  latitude : ℚ
  longitude : ℚ
  price : ℚ
  bedrooms : ℚ
  bathrooms : ℚ
deriving DecidableEq, Repr

/-- Numpy/pandas `.round()`: round half to even. -/
def npRound (x : ℚ) : ℤ :=
  if x - ⌊x⌋ < 1/2 then ⌊x⌋
  else if 1/2 < x - ⌊x⌋ then ⌊x⌋ + 1
  else if 2 ∣ ⌊x⌋ then ⌊x⌋ else ⌊x⌋ + 1

/-- `grid_lat = (latitude / grid_size).round() * grid_size`. -/
def gridLat (g : ℚ) (r : PropRow) : ℚ := (npRound (r.latitude / g) : ℚ) * g

/-- `grid_lon = (longitude / grid_size).round() * grid_size`. -/
def gridLon (g : ℚ) (r : PropRow) : ℚ := (npRound (r.longitude / g) : ℚ) * g

/-- `grid_id = str(grid_lat) + '_' + str(grid_lon)`: since Python's
float-to-string map is injective, the pair of coordinates is an
equivalent key. -/
def gridId (g : ℚ) (r : PropRow) : ℚ × ℚ := (gridLat g r, gridLon g r)

/-- The group of `df.groupby('grid_id')` that contains row `r`: all rows
of `df` with the same `grid_id`, in input order. The `how='left'` merge
joins each row to the aggregates of exactly this group. -/
def cellRows (g : ℚ) (df : List PropRow) (r : PropRow) : List PropRow :=
  df.filter (fun s => decide (gridId g s = gridId g r))

/-- Aggregate `'mean'`: arithmetic mean of a column. -/
def listMeanQ (l : List ℚ) : ℚ := l.sum / l.length

/-- Aggregate `'median'` (pandas): middle element of the sorted column,
or the average of the two middle elements for even length. Only applied
to non-empty groups. -/
def medianQ (l : List ℚ) : ℚ :=
  let s := l.insertionSort (· ≤ ·)
  if l.length % 2 = 1 then s.getD (l.length / 2) 0
  else (s.getD (l.length / 2 - 1) 0 + s.getD (l.length / 2) 0) / 2

/-- Aggregate `'std'` (pandas sample standard deviation, `ddof=1`):
`NaN` (`none`) for groups with fewer than two rows, else
`sqrt(Σ(x - mean)² / (n - 1))`. -/
noncomputable def sampleStd (l : List ℚ) : Option ℝ :=
  if l.length < 2 then none
  else some (Real.sqrt
    (((l.map (fun x => (x - listMeanQ l) ^ 2)).sum / ((l.length : ℚ) - 1) : ℚ)))

open Classical in
/-- Pandas `Series.median()` with its default `skipna`, applied by the
caller to the non-null entries of a column: `NaN` (`none`) when nothing
is left. -/
noncomputable def medianR (l : List ℝ) : Option ℝ :=
  if l.isEmpty then none
  else
    let s := l.insertionSort (· ≤ ·)
    if l.length % 2 = 1 then some (s.getD (l.length / 2) 0)
    else some ((s.getD (l.length / 2 - 1) 0 + s.getD (l.length / 2) 0) / 2)

/-- `Series.fillna(fill)` on one entry. -/
def fillNA (v : Option ℝ) (fill : Option ℝ) : Option ℝ :=
  match v with
  | some x => some x
  | none => fill

/-- The joined `grid_price_std` column before the fill: one entry per
row of `df`, the sample std of the row's cell. -/
noncomputable def gridStdColumn (g : ℚ) (df : List PropRow) : List (Option ℝ) :=
  df.map (fun s => sampleStd ((cellRows g df s).map PropRow.price))

/-- The value `df_with_grid[col].median()` used by the fill loop for the
`grid_price_std` column: the median of the joined column, computed after
the per-cell join; `none` when every entry is null. -/
noncomputable def gridStdFillValue (g : ℚ) (df : List PropRow) : Option ℝ :=
  medianR ((gridStdColumn g df).filterMap id)

/-- The grid columns `create_grid_features` attaches to one row. Of the
joined aggregate columns only `grid_price_std` can be null (every group
contains at least its own row, so means/medians/counts are total and the
`fillna` loop leaves them unchanged); the std column carries the
post-fill value. -/
structure GridFeats where
  grid_lat : ℚ
  grid_lon : ℚ
  grid_id : ℚ × ℚ
  grid_price_mean : ℚ
  grid_price_median : ℚ
  grid_price_std : Option ℝ
  grid_price_count : ℕ
  grid_bedrooms_mean : ℚ
  grid_bedrooms_median : ℚ
  grid_bathrooms_mean : ℚ
  grid_bathrooms_median : ℚ

/-- The grid features joined onto row `r` of table `df` by
`create_grid_features`, after the `fillna` loop. -/
noncomputable def gridFeatsRow (g : ℚ) (df : List PropRow) (r : PropRow) : GridFeats :=
  let cell := cellRows g df r
  { grid_lat := gridLat g r
    grid_lon := gridLon g r
    grid_id := gridId g r
    grid_price_mean := listMeanQ (cell.map PropRow.price)
    grid_price_median := medianQ (cell.map PropRow.price)
    grid_price_std := fillNA (sampleStd (cell.map PropRow.price)) (gridStdFillValue g df)
    grid_price_count := cell.length
    grid_bedrooms_mean := listMeanQ (cell.map PropRow.bedrooms)
    grid_bedrooms_median := medianQ (cell.map PropRow.bedrooms)
    grid_bathrooms_mean := listMeanQ (cell.map PropRow.bathrooms)
    grid_bathrooms_median := medianQ (cell.map PropRow.bathrooms) }

/-- `create_grid_features`: every row of the copy of `df` is joined with
its grid features; row count and order are preserved. -/
noncomputable def createGridFeatures (g : ℚ) (df : List PropRow) :
    List (PropRow × GridFeats) :=
  df.map (fun r => (r, gridFeatsRow g df r))

/-! ## Helper lemmas: permutation invariance of the aggregates -/

theorem insertionSort_eq_of_perm {α : Type} [LinearOrder α] {l l' : List α}
    (h : l.Perm l') :
    l.insertionSort (· ≤ ·) = l'.insertionSort (· ≤ ·) := by
  refine List.eq_of_perm_of_sorted ?_ (List.sorted_insertionSort _ l)
    (List.sorted_insertionSort _ l')
  exact (List.perm_insertionSort _ l).trans (h.trans (List.perm_insertionSort _ l').symm)

theorem listMeanQ_perm {l l' : List ℚ} (h : l.Perm l') : listMeanQ l = listMeanQ l' := by
  rw [listMeanQ, listMeanQ, h.sum_eq, h.length_eq]

theorem medianQ_perm {l l' : List ℚ} (h : l.Perm l') : medianQ l = medianQ l' := by
  simp only [medianQ]
  rw [insertionSort_eq_of_perm h, h.length_eq]

theorem medianR_perm {l l' : List ℝ} (h : l.Perm l') : medianR l = medianR l' := by
  simp only [medianR]
  rw [insertionSort_eq_of_perm h, h.length_eq, h.isEmpty_eq]

theorem sampleStd_perm {l l' : List ℚ} (h : l.Perm l') : sampleStd l = sampleStd l' := by
  simp only [sampleStd]
  rw [h.length_eq, listMeanQ_perm h,
    (h.map (fun x => (x - listMeanQ l') ^ 2)).sum_eq]

theorem cellRows_perm (g : ℚ) {df df' : List PropRow} (h : df.Perm df')
    (r : PropRow) : (cellRows g df r).Perm (cellRows g df' r) :=
  h.filter _

theorem gridStdFillValue_perm (g : ℚ) {df df' : List PropRow} (h : df.Perm df') :
    gridStdFillValue g df = gridStdFillValue g df' := by
  rw [gridStdFillValue, gridStdFillValue]
  refine medianR_perm (List.Perm.filterMap id ?_)
  rw [gridStdColumn, gridStdColumn]
  have hfun : ∀ s ∈ df,
      sampleStd ((cellRows g df s).map PropRow.price)
        = sampleStd ((cellRows g df' s).map PropRow.price) := fun s _ =>
    sampleStd_perm ((cellRows_perm g h s).map PropRow.price)
  rw [List.map_congr_left hfun]
  exact h.map _

theorem gridFeatsRow_perm (g : ℚ) {df df' : List PropRow} (h : df.Perm df')
    (r : PropRow) : gridFeatsRow g df r = gridFeatsRow g df' r := by
  have hcell := cellRows_perm g h r
  simp only [gridFeatsRow]
  rw [listMeanQ_perm (hcell.map PropRow.price), medianQ_perm (hcell.map PropRow.price),
    sampleStd_perm (hcell.map PropRow.price), gridStdFillValue_perm g h,
    hcell.length_eq, listMeanQ_perm (hcell.map PropRow.bedrooms),
    medianQ_perm (hcell.map PropRow.bedrooms),
    listMeanQ_perm (hcell.map PropRow.bathrooms),
    medianQ_perm (hcell.map PropRow.bathrooms)]

/-! ## C5: grid determinism -/

/-- C5: `grid_id` is a pure function of the rounded scaled coordinates —
two rows with identical `round(lat/grid_size)` and `round(lon/grid_size)`
get the identical `grid_id` — and permuting the input row order changes
no property's `grid_id` (it depends only on the property) and no per-cell
aggregate value (every joined grid feature of every property, the
back-filled std included, is unchanged). -/
theorem C5_grid_determinism (g : ℚ) (r s : PropRow) (df df' : List PropRow)
    (hlat : npRound (r.latitude / g) = npRound (s.latitude / g))
    (hlon : npRound (r.longitude / g) = npRound (s.longitude / g))
    (hperm : df.Perm df') :
    gridId g r = gridId g s ∧
    ∀ t : PropRow, gridFeatsRow g df t = gridFeatsRow g df' t := by
  refine ⟨?_, fun t => gridFeatsRow_perm g hperm t⟩
  rw [gridId, gridId, gridLat, gridLat, gridLon, gridLon, hlat, hlon]

/-- Witness for C5 at a concrete input: two distinct rows of the same
0.01-degree cell and a two-row table against its reversal. -/
theorem C5_grid_determinism_witness :
    npRound (((1:ℚ)/250) / (1/100)) = npRound (((1:ℚ)/1000) / (1/100)) ∧
    npRound (((0:ℚ)) / (1/100)) = npRound (((1:ℚ)/500) / (1/100)) ∧
    ([⟨1/250, 0, 100, 1, 1⟩, ⟨1/1000, 1/500, 200, 2, 2⟩] : List PropRow).Perm
      [⟨1/1000, 1/500, 200, 2, 2⟩, ⟨1/250, 0, 100, 1, 1⟩] ∧
    (gridId (1/100) ⟨1/250, 0, 100, 1, 1⟩ = gridId (1/100) ⟨1/1000, 1/500, 200, 2, 2⟩ ∧
      ∀ t : PropRow,
        gridFeatsRow (1/100) [⟨1/250, 0, 100, 1, 1⟩, ⟨1/1000, 1/500, 200, 2, 2⟩] t
          = gridFeatsRow (1/100) [⟨1/1000, 1/500, 200, 2, 2⟩, ⟨1/250, 0, 100, 1, 1⟩] t) := by
  have hlat : npRound (((1:ℚ)/250) / (1/100)) = npRound (((1:ℚ)/1000) / (1/100)) := by
    norm_num [npRound]
  have hlon : npRound (((0:ℚ)) / (1/100)) = npRound (((1:ℚ)/500) / (1/100)) := by
    norm_num [npRound]
  have hperm : ([⟨1/250, 0, 100, 1, 1⟩, ⟨1/1000, 1/500, 200, 2, 2⟩] : List PropRow).Perm
      [⟨1/1000, 1/500, 200, 2, 2⟩, ⟨1/250, 0, 100, 1, 1⟩] :=
    List.Perm.swap _ _ _
  exact ⟨hlat, hlon, hperm,
    C5_grid_determinism (1/100) ⟨1/250, 0, 100, 1, 1⟩ ⟨1/1000, 1/500, 200, 2, 2⟩
      _ _ hlat hlon hperm⟩

/-! ## C4: singleton cells and the std back-fill -/

/-- C4 counterexample: in a table containing exactly one property the
only cell is a singleton, its sample std is `NaN`, the joined std column
is all-`NaN`, so the dataset-wide median used by `fillna` is itself
`NaN` and the back-fill leaves the std `none` — the claim's "never left
null" is false. -/
theorem C4_counterexample :
    (gridFeatsRow (1/100) [⟨0, 0, 100, 1, 1⟩] ⟨0, 0, 100, 1, 1⟩).grid_price_count = 1 ∧
    (gridFeatsRow (1/100) [⟨0, 0, 100, 1, 1⟩] ⟨0, 0, 100, 1, 1⟩).grid_price_std = none := by
  have hcell : cellRows (1/100) [⟨0, 0, 100, 1, 1⟩] (⟨0, 0, 100, 1, 1⟩ : PropRow)
      = [⟨0, 0, 100, 1, 1⟩] := by
    norm_num [cellRows, List.filter]
  have hstd : sampleStd [(100:ℚ)] = none := by
    simp [sampleStd]
  have hfill : gridStdFillValue (1/100) [⟨0, 0, 100, 1, 1⟩] = none := by
    rw [gridStdFillValue, gridStdColumn]
    simp only [List.map_cons, List.map_nil, hcell]
    rw [hstd]
    simp [medianR]
  constructor
  · simp only [gridFeatsRow, hcell]
    rfl
  · simp only [gridFeatsRow, hcell, List.map_cons, List.map_nil]
    rw [hstd, hfill]
    rfl

/-- C4 (amended): a grid cell containing exactly one property gets
count 1 and mean/median equal to that property's own value, and its
undefined std aggregate is back-filled with the dataset-wide median of
the non-null entries of that statistic's joined column (computed after
the per-cell join); when every cell of the table is a singleton that
median is itself undefined and the std remains null. It is never set to
a default zero. -/
theorem C4_singleton_cell (g : ℚ) (df : List PropRow) (r : PropRow)
    (hsingle : cellRows g df r = [r]) :
    (gridFeatsRow g df r).grid_price_count = 1 ∧
    (gridFeatsRow g df r).grid_price_mean = r.price ∧
    (gridFeatsRow g df r).grid_price_median = r.price ∧
    (gridFeatsRow g df r).grid_price_std = gridStdFillValue g df := by
  have hstd : sampleStd [r.price] = none := by simp [sampleStd]
  refine ⟨?_, ?_, ?_, ?_⟩
  · simp only [gridFeatsRow, hsingle]
    rfl
  · simp only [gridFeatsRow, hsingle]
    show listMeanQ [r.price] = r.price
    simp [listMeanQ]
  · simp only [gridFeatsRow, hsingle]
    show medianQ [r.price] = r.price
    simp [medianQ]
  · simp only [gridFeatsRow, hsingle]
    show fillNA (sampleStd [r.price]) (gridStdFillValue g df) = gridStdFillValue g df
    rw [hstd]
    rfl

/-- Witness for C4 at a concrete input: a three-row table in which the
first property is alone in its cell and the other two share one. -/
theorem C4_singleton_cell_witness :
    cellRows (1/100) [⟨0, 0, 100, 1, 1⟩, ⟨1, 0, 150, 1, 1⟩, ⟨1, 0, 250, 2, 2⟩]
        (⟨0, 0, 100, 1, 1⟩ : PropRow) = [⟨0, 0, 100, 1, 1⟩] ∧
    ((gridFeatsRow (1/100) [⟨0, 0, 100, 1, 1⟩, ⟨1, 0, 150, 1, 1⟩, ⟨1, 0, 250, 2, 2⟩]
        ⟨0, 0, 100, 1, 1⟩).grid_price_count = 1 ∧
      (gridFeatsRow (1/100) [⟨0, 0, 100, 1, 1⟩, ⟨1, 0, 150, 1, 1⟩, ⟨1, 0, 250, 2, 2⟩]
        ⟨0, 0, 100, 1, 1⟩).grid_price_mean = (100:ℚ) ∧
      (gridFeatsRow (1/100) [⟨0, 0, 100, 1, 1⟩, ⟨1, 0, 150, 1, 1⟩, ⟨1, 0, 250, 2, 2⟩]
        ⟨0, 0, 100, 1, 1⟩).grid_price_median = (100:ℚ) ∧
      (gridFeatsRow (1/100) [⟨0, 0, 100, 1, 1⟩, ⟨1, 0, 150, 1, 1⟩, ⟨1, 0, 250, 2, 2⟩]
        ⟨0, 0, 100, 1, 1⟩).grid_price_std
        = gridStdFillValue (1/100) [⟨0, 0, 100, 1, 1⟩, ⟨1, 0, 150, 1, 1⟩, ⟨1, 0, 250, 2, 2⟩]) := by
  have hsingle : cellRows (1/100)
      [⟨0, 0, 100, 1, 1⟩, ⟨1, 0, 150, 1, 1⟩, ⟨1, 0, 250, 2, 2⟩]
      (⟨0, 0, 100, 1, 1⟩ : PropRow) = [⟨0, 0, 100, 1, 1⟩] := by
    norm_num [cellRows, List.filter, gridId, gridLat, gridLon, npRound]
  exact ⟨hsingle, C4_singleton_cell (1/100) _ _ hsingle⟩

/-! ## C7: configuration is stored without validation -/

/-- The configuration state of `FeatureEngineer`. -/
structure FeatureEngineer where
  grid_size : ℚ
  density_radius_km : ℚ
  distance_threshold_km : ℚ
deriving DecidableEq, Repr

/-- `FeatureEngineer.__init__`: assigns the three configuration values
to attributes; the source contains no validation of any of them. -/
def FeatureEngineer.init (grid_size density_radius_km distance_threshold_km : ℚ) :
    FeatureEngineer :=
  ⟨grid_size, density_radius_km, distance_threshold_km⟩

/-- C7 counterexample: constructing the engine with
`grid_size = -0.01 ≤ 0` succeeds — the value is stored verbatim — and
grid-feature computation proceeds and produces one output row per input
row; no configuration error is raised before (or during) feature
computation. -/
theorem C7_counterexample :
    (FeatureEngineer.init (-(1/100)) 1 10).grid_size = -(1/100) ∧
    (createGridFeatures (-(1/100)) [⟨0, 0, 100, 1, 1⟩]).length = 1 := by
  refine ⟨rfl, ?_⟩
  rw [createGridFeatures]
  simp

/-- C7 (amended): `__init__` performs no validation: any configuration,
non-positive `grid_size` and `density_radius_km` included, is stored
unchanged and feature computation still proceeds, producing one output
row per input row instead of raising a configuration error. -/
theorem C7_no_validation (g dr dt : ℚ) (_h : g ≤ 0 ∨ dr ≤ 0)
    (df : List PropRow) :
    (FeatureEngineer.init g dr dt).grid_size = g ∧
    (FeatureEngineer.init g dr dt).density_radius_km = dr ∧
    (FeatureEngineer.init g dr dt).distance_threshold_km = dt ∧
    (createGridFeatures g df).length = df.length := by
  refine ⟨rfl, rfl, rfl, ?_⟩
  rw [createGridFeatures]
  simp

/-- Witness for C7 at a concrete configuration with `grid_size < 0` and a
valid `density_radius_km`, matching the counterexample's configuration. -/
theorem C7_no_validation_witness :
    ((-(1/100) : ℚ) ≤ 0 ∨ (1 : ℚ) ≤ 0) ∧
    ((FeatureEngineer.init (-(1/100)) 1 10).grid_size = -(1/100) ∧
      (FeatureEngineer.init (-(1/100)) 1 10).density_radius_km = 1 ∧
      (FeatureEngineer.init (-(1/100)) 1 10).distance_threshold_km = 10 ∧
      (createGridFeatures (-(1/100)) [⟨0, 0, 100, 1, 1⟩]).length
        = [(⟨0, 0, 100, 1, 1⟩ : PropRow)].length) := by
  refine ⟨Or.inl (by norm_num), ?_⟩
  exact C7_no_validation (-(1/100)) 1 10 (Or.inl (by norm_num)) _

/-! ## The full pipeline (`create_all_features`)

The remaining claims concern the whole table transformation: which
columns the pipeline assigns, and that everything else is carried
through. A data-frame row is the five required numeric columns plus the
remaining columns — input attributes and appended features — as an
association list in column order; a pandas column assignment updates an
existing column in place and appends a new one at the end. -/

/-- A dynamically typed cell value of the data frame. -/
inductive FVal where
  | real (x : ℝ)
  | rat (q : ℚ)
  | nat (n : ℕ)
  | cell (gla glo : ℚ)
  | str (s : String)
  | strList (l : List String)
  | date (epochDays : ℤ)
  | naT
deriving Inhabited

/-- One row of the table passed to `create_all_features`. -/
structure Listing where
  latitude : ℚ
  longitude : ℚ
  price : ℚ
  bedrooms : ℚ
  bathrooms : ℚ
  cols : List (String × FVal)

/-- Column access `df[n]` on one row (`none` = no such column). -/
def getCol (r : Listing) (n : String) : Option FVal := r.cols.lookup n

/-- `n in df.columns`. -/
def hasCol (r : Listing) (n : String) : Bool := (getCol r n).isSome

/-- Pandas column assignment `df[n] = v` on the column list: update in
place when the column exists, append at the end otherwise. -/
def setCol (n : String) (v : FVal) (cols : List (String × FVal)) :
    List (String × FVal) :=
  if cols.any (fun p => p.1 == n) then
    cols.map (fun p => match p.1 == n with
      | true => (n, v)
      | false => p)
  else cols ++ [(n, v)]

/-- One column assignment on a row. -/
def Listing.upd (r : Listing) (n : String) (v : FVal) : Listing :=
  { r with cols := setCol n v r.cols }

/-- A sequence of column assignments, in order. -/
def Listing.updMany (r : Listing) (l : List (String × FVal)) : Listing :=
  l.foldl (fun s p => s.upd p.1 p.2) r

/-- The five required numeric columns of a row. -/
def Listing.toPropRow (r : Listing) : PropRow :=
  ⟨r.latitude, r.longitude, r.price, r.bedrooms, r.bathrooms⟩

/-- The coordinates of a row. -/
def Listing.point (r : Listing) : GeoPoint := ⟨r.latitude, r.longitude⟩

/-- The float value of a cell under numpy/pandas arithmetic: numeric
cells cast to float, everything else (missing values included) is NaN
(`none`). -/
def FVal.toReal : FVal → Option ℝ
  | FVal.real x => some x
  | FVal.rat q => some (q : ℝ)
  | FVal.nat n => some (n : ℝ)
  | _ => none

/-- The ambient state of the third-party datetime/parsing layer used by
the temporal and review engineers: `pd.to_datetime('today')` (a fixed
day, its month and day-of-week), the string parsers of
`pd.to_datetime(..., errors='coerce')` and `pd.to_numeric(...,
errors='coerce')`, and `ast.literal_eval`-based amenity-list parsing. -/
structure PandasEnv where
  todayEpoch : ℤ
  todayMonth : ℕ
  todayDow : ℕ
  parseDate : String → Option ℤ
  numDate : ℝ → Option ℤ
  parseNum : String → Option ℝ
  parseAmenityList : String → List String

/-- `pd.to_datetime(cell, errors='coerce')`: a parseable string becomes
a timestamp, an unparseable one `NaT`; timestamps pass through; a
numeric cell is interpreted as an offset from the epoch (out-of-bounds
values coerce to `NaT`); anything else (`NaN` included) coerces to
`NaT`. -/
def toDatetimeCoerce (env : PandasEnv) : FVal → FVal
  | FVal.str s =>
      match env.parseDate s with
      | some d => FVal.date d
      | none => FVal.naT
  | FVal.date d => FVal.date d
  | FVal.real x =>
      match env.numDate x with
      | some d => FVal.date d
      | none => FVal.naT
  | FVal.rat q =>
      match env.numDate (q : ℝ) with
      | some d => FVal.date d
      | none => FVal.naT
  | FVal.nat n =>
      match env.numDate (n : ℝ) with
      | some d => FVal.date d
      | none => FVal.naT
  | _ => FVal.naT

/-- `.clip(0, 1)`. -/
noncomputable def clip01 (x : ℝ) : ℝ := max 0 (min 1 x)

/-- Numpy multiplication of two cells: NaN propagates. -/
noncomputable def mulF (a b : FVal) : FVal :=
  match FVal.toReal a, FVal.toReal b with
  | some x, some y => FVal.real (x * y)
  | _, _ => FVal.naT

/-- `Option ℝ` to cell: NaN for `none`. -/
def ofOptReal : Option ℝ → FVal
  | some x => FVal.real x
  | none => FVal.naT

/-- Python `s.startswith(pre)`, on the character lists. -/
def strStartsWith (s pre : String) : Bool := pre.data.isPrefixOf s.data

/-! ### Geospatial steps on rows -/

def distColName (c : String) : String := "dist_nearest_" ++ c ++ "_km"

def countColName (c : String) : String := "count_" ++ c ++ "_1km"

/-- The columns `calculate_distances` assigns, one per category of the
POI dict, with the per-row value of `distanceFeature`. -/
noncomputable def distPairs (T : ℝ) (ps : List (String × List GeoPoint))
    (r : Listing) : List (String × FVal) :=
  ps.map (fun c => (distColName c.1, ofOptReal (distanceFeature T c.2 r.point)))

noncomputable def distStep (T : ℝ) (ps : List (String × List GeoPoint))
    (r : Listing) : Listing :=
  r.updMany (distPairs T ps r)

/-- The columns `calculate_densities` assigns. -/
noncomputable def densPairs (radius : ℝ) (ps : List (String × List GeoPoint))
    (r : Listing) : List (String × FVal) :=
  ps.map (fun c => (countColName c.1, FVal.nat (densityCount radius c.2 r.point)))

noncomputable def densStep (radius : ℝ) (ps : List (String × List GeoPoint))
    (r : Listing) : Listing :=
  r.updMany (densPairs radius ps r)

/-- The names of the eight flattened aggregate columns of the
`groupby('grid_id').agg` table (its `columns[1:]`, after the key). -/
def gridAggNames : List String :=
  ["grid_price_mean", "grid_price_median", "grid_price_std", "grid_price_count",
   "grid_bedrooms_mean", "grid_bedrooms_median", "grid_bathrooms_mean",
   "grid_bathrooms_median"]

/-- The eight aggregate columns of the `groupby('grid_id').agg` table,
evaluated at one row's cell; `grid_price_std` carries the raw sample
std (pre-`fillna`). -/
noncomputable def aggPairs (g : ℚ) (base : List PropRow) (r : PropRow) :
    List (String × FVal) :=
  let cell := cellRows g base r
  [("grid_price_mean", FVal.rat (listMeanQ (cell.map PropRow.price))),
   ("grid_price_median", FVal.rat (medianQ (cell.map PropRow.price))),
   ("grid_price_std", ofOptReal (sampleStd (cell.map PropRow.price))),
   ("grid_price_count", FVal.nat cell.length),
   ("grid_bedrooms_mean", FVal.rat (listMeanQ (cell.map PropRow.bedrooms))),
   ("grid_bedrooms_median", FVal.rat (medianQ (cell.map PropRow.bedrooms))),
   ("grid_bathrooms_mean", FVal.rat (listMeanQ (cell.map PropRow.bathrooms))),
   ("grid_bathrooms_median", FVal.rat (medianQ (cell.map PropRow.bathrooms)))]

/-- `left.merge(right, on='grid_id', how='left')` on one row's column
list, with `right` the non-key aggregate columns: a column name present
on both sides gets pandas' default suffixes — the left copy is renamed
`<name>_x` in place, the right copy is appended as `<name>_y`; all
other columns keep their names, and the right columns are appended
after the left ones. -/
def mergeCols (left right : List (String × FVal)) : List (String × FVal) :=
  left.map (fun p => match right.any (fun q => q.1 == p.1) with
    | true => (p.1 ++ "_x", p.2)
    | false => p) ++
  right.map (fun q => match left.any (fun p => p.1 == q.1) with
    | true => (q.1 ++ "_y", q.2)
    | false => q)

/-- The `fillna` loop of `create_grid_features`, restricted to the one
aggregate column that can be null: when the unsuffixed `grid_price_std`
column exists (no collision) its null entries are filled with the
dataset-wide median `fill`; the seven other aggregate columns are total,
so their fill is a no-op, and a suffix-renamed colliding column fails
the loop's `if col in df_with_grid.columns` guard and is skipped. -/
def applyStdFill (fill : Option ℝ) (cols : List (String × FVal)) :
    List (String × FVal) :=
  cols.map (fun p => match p.1 == "grid_price_std", p.2 with
    | true, FVal.naT => (p.1, ofOptReal fill)
    | _, _ => p)

/-- `create_grid_features` on one row: the `grid_lat`, `grid_lon` and
`grid_id` column assignments, then the left merge with the aggregate
table of the row's cell, then the `fillna` back-fill of the std
column. -/
noncomputable def gridStep (g : ℚ) (base : List PropRow) (r : Listing) : Listing :=
  let r0 := ((r.upd "grid_lat" (FVal.rat (gridLat g r.toPropRow))).upd
    "grid_lon" (FVal.rat (gridLon g r.toPropRow))).upd
    "grid_id" (FVal.cell (gridId g r.toPropRow).1 (gridId g r.toPropRow).2)
  let merged := mergeCols r0.cols (aggPairs g base r.toPropRow)
  { r0 with cols := applyStdFill (gridStdFillValue g base) merged }

/-- The row's `dist_nearest_*` columns (`distance_cols`), in column
order. -/
def distCols (r : Listing) : List (String × FVal) :=
  r.cols.filter (fun p => strStartsWith p.1 "dist_nearest_")

/-- The two columns `create_accessibility_scores` assigns when distance
columns exist; `transportScore` consumes the presence and value of
`dist_nearest_subway_km` exactly as in the source. -/
noncomputable def accessPairs (T : ℝ) (r : Listing) : List (String × FVal) :=
  [("accessibility_score",
      FVal.real (accessibilityVal T ((distCols r).map (fun p => FVal.toReal p.2)))),
   ("transport_score",
      FVal.real (transportScore T ((getCol r "dist_nearest_subway_km").map FVal.toReal)))]

noncomputable def accessStep (T : ℝ) (r : Listing) : Listing :=
  match (distCols r).isEmpty with
  | true => r
  | false => r.updMany (accessPairs T r)

/-- The columns `create_interaction_features` assigns, each guarded by
presence of its inputs (`bedrooms`/`bathrooms`/`price` are schema
columns, so their guards always hold). -/
noncomputable def interactPairs (r : Listing) : List (String × FVal) :=
  (match getCol r "price_per_bedroom", getCol r "accessibility_score" with
   | some a, some b => [("price_per_bedroom_accessibility", mulF a b)]
   | _, _ => []) ++
  [("bedroom_bathroom_ratio", FVal.rat (r.bedrooms / (r.bathrooms + 1/10)))] ++
  (match getCol r "dist_nearest_subway_km" with
   | some v => [("price_transport_interaction", mulF (FVal.rat r.price) v)]
   | none => [])

noncomputable def interactStep (r : Listing) : Listing :=
  r.updMany (interactPairs r)

/-! ### Temporal, review and amenity steps on rows -/

/-- The columns `add_date_features` assigns (every value derived from
`pd.to_datetime('today')`). -/
noncomputable def datePairs (env : PandasEnv) : List (String × FVal) :=
  [("current_date", FVal.date env.todayEpoch),
   ("month", FVal.nat env.todayMonth),
   ("day_of_week", FVal.nat env.todayDow),
   ("is_weekend", FVal.nat (if env.todayDow = 5 ∨ env.todayDow = 6 then 1 else 0)),
   ("month_sin", FVal.real (Real.sin (2 * Real.pi * (env.todayMonth : ℝ) / 12))),
   ("month_cos", FVal.real (Real.cos (2 * Real.pi * (env.todayMonth : ℝ) / 12))),
   ("day_sin", FVal.real (Real.sin (2 * Real.pi * (env.todayDow : ℝ) / 7))),
   ("day_cos", FVal.real (Real.cos (2 * Real.pi * (env.todayDow : ℝ) / 7)))]

noncomputable def addDateFeatures (env : PandasEnv) (r : Listing) : Listing :=
  r.updMany (datePairs env)

/-- `_get_season` (Brazil, Southern hemisphere). -/
def getSeason (m : ℕ) : String :=
  if m = 12 ∨ m = 1 ∨ m = 2 then "summer"
  else if m = 3 ∨ m = 4 ∨ m = 5 then "autumn"
  else if m = 6 ∨ m = 7 ∨ m = 8 then "winter"
  else "spring"

/-- The columns `add_seasonal_features` assigns, reading the `month`
column (backed by today's month when absent). -/
noncomputable def seasonalPairs (env : PandasEnv) (r : Listing) :
    List (String × FVal) :=
  let m := match getCol r "month" with
    | some (FVal.nat n) => n
    | _ => env.todayMonth
  [("season", FVal.str (getSeason m)),
   ("is_high_season", FVal.nat (if getSeason m = "summer" then 1 else 0)),
   ("quarter", FVal.nat ((m - 1) / 3 + 1))]

noncomputable def addSeasonalFeatures (env : PandasEnv) (r : Listing) : Listing :=
  let r0 := match hasCol r "month" with
    | true => r
    | false => r.upd "month" (FVal.nat env.todayMonth)
  r0.updMany (seasonalPairs env r0)

/-- The columns `add_booking_patterns` assigns, each guarded by the
presence of its input column. -/
noncomputable def bookingPairs (r : Listing) : List (String × FVal) :=
  (match getCol r "availability_30" with
   | some v => [("occupancy_rate_30", match FVal.toReal v with
       | some x => FVal.real (clip01 (1 - x / 30))
       | none => FVal.naT)]
   | none => []) ++
  (match getCol r "availability_60" with
   | some v => [("occupancy_rate_60", match FVal.toReal v with
       | some x => FVal.real (clip01 (1 - x / 60))
       | none => FVal.naT)]
   | none => []) ++
  (match getCol r "availability_90" with
   | some v => [("occupancy_rate_90", match FVal.toReal v with
       | some x => FVal.real (clip01 (1 - x / 90))
       | none => FVal.naT)]
   | none => []) ++
  (match getCol r "reviews_per_month" with
   | some v => [("recent_demand", FVal.real ((FVal.toReal v).getD 0))]
   | none => []) ++
  (match getCol r "number_of_reviews", getCol r "reviews_per_month" with
   | some a, some b => [("popularity_score",
       FVal.real (((FVal.toReal a).getD 0) * 0.5 + ((FVal.toReal b).getD 0) * 100 * 0.5))]
   | _, _ => [])

noncomputable def addBookingPatterns (r : Listing) : Listing :=
  r.updMany (bookingPairs r)

/-- Row-wise sample standard deviation over floats (`ddof=1`, as used by
`df[cols].std(axis=1)` after dropping NaN). -/
noncomputable def sampleStdR (l : List ℝ) : Option ℝ :=
  if l.length < 2 then none
  else some (Real.sqrt
    ((l.map (fun x => (x - listMean l) ^ 2)).sum / ((l.length : ℝ) - 1)))

def reviewScoreCols : List String :=
  ["review_scores_accuracy", "review_scores_cleanliness", "review_scores_checkin",
   "review_scores_communication", "review_scores_location", "review_scores_value"]

/-- The first block of columns `add_review_features` assigns (rating
normalisation, review counts, detailed-rating aggregates), all computed
from the stage-input frame. -/
noncomputable def reviewPairsA (minReviews : ℕ) (r : Listing) :
    List (String × FVal) :=
  (match getCol r "review_scores_rating" with
   | some v => [("rating_normalized", match FVal.toReal v with
       | some x => FVal.real (clip01 (x / 10))
       | none => FVal.naT)]
   | none => []) ++
  (match getCol r "number_of_reviews" with
   | some v =>
       [("has_enough_reviews", FVal.nat (match FVal.toReal v with
           | some x => if (minReviews : ℝ) ≤ x then 1 else 0
           | none => 0)),
        ("reviews_log", match FVal.toReal v with
           | some x => FVal.real (Real.log (1 + x))
           | none => FVal.naT)]
   | none => []) ++
  (match (reviewScoreCols.filter (fun n => hasCol r n)).isEmpty with
   | true => []
   | false =>
     let vals := (reviewScoreCols.filter (fun n => hasCol r n)).filterMap
       (fun n => (getCol r n).bind FVal.toReal)
     let consistency : ℝ := (sampleStdR vals).getD 0
     [("avg_detailed_rating",
        match vals.isEmpty with
        | true => FVal.naT
        | false => FVal.real (listMean vals)),
      ("rating_consistency", FVal.real consistency),
      ("rating_quality", FVal.real (10 - consistency))])

/-- The trust-score and review-frequency columns, computed from the
frame after the first block (the trust components read the columns the
first block just wrote). -/
noncomputable def trustPairs (r : Listing) : List (String × FVal) :=
  let comps : List ℝ :=
    (match getCol r "rating_normalized" with
     | some v => [((FVal.toReal v).getD 0) * 0.4]
     | none => []) ++
    (match getCol r "number_of_reviews" with
     | some v => [clip01 (((FVal.toReal v).getD 0) / 100) * 0.3]
     | none => []) ++
    (match getCol r "has_enough_reviews" with
     | some v => [((FVal.toReal v).getD 0) * 0.3]
     | none => [])
  (match comps.isEmpty with
   | true => []
   | false => [("trust_score", FVal.real comps.sum)]) ++
  (match getCol r "reviews_per_month" with
   | some v => [("review_frequency", FVal.real ((FVal.toReal v).getD 0))]
   | none => [])

noncomputable def addReviewFeatures (minReviews : ℕ) (r : Listing) : Listing :=
  let rA := r.updMany (reviewPairsA minReviews r)
  rA.updMany (trustPairs rA)

/-- The host-experience block of `add_host_features`: when a
`host_since` column exists it is overwritten with its coerced datetime
parse and the experience columns are derived from the parsed value. -/
noncomputable def hostSincePairs (env : PandasEnv) (r : Listing) :
    List (String × FVal) :=
  match getCol r "host_since" with
  | some v =>
      let hs := toDatetimeCoerce env v
      ("host_since", hs) ::
        (match hs with
         | FVal.date d =>
             [("host_experience_days", FVal.real ((env.todayEpoch - d : ℤ) : ℝ)),
              ("host_experience_years", FVal.real (((env.todayEpoch - d : ℤ) : ℝ) / 365.25)),
              ("host_experience_capped",
                FVal.real (max 0 (min 5 (((env.todayEpoch - d : ℤ) : ℝ) / 365.25))))]
         | _ =>
             [("host_experience_days", FVal.naT),
              ("host_experience_years", FVal.naT),
              ("host_experience_capped", FVal.naT)])
  | none => []

/-- The host-status block of `add_host_features`, computed from the
frame after the experience block. -/
noncomputable def hostPairsB (env : PandasEnv) (r : Listing) :
    List (String × FVal) :=
  (match getCol r "host_is_superhost" with
   | some v => [("is_superhost_num", FVal.nat (match v with
       | FVal.str s => if s = "t" then 1 else 0
       | _ => 0))]
   | none => []) ++
  (match getCol r "host_identity_verified" with
   | some v => [("is_verified_num", FVal.nat (match v with
       | FVal.str s => if s = "t" then 1 else 0
       | _ => 0))]
   | none => []) ++
  (match getCol r "host_response_rate" with
   | some v => [("host_response_rate_num", match v with
       | FVal.str s =>
           (match env.parseNum (s.dropRightWhile (fun c => c == '%')) with
            | some x => FVal.real (x / 100)
            | none => FVal.naT)
       | _ => FVal.naT)]
   | none => []) ++
  (match getCol r "host_acceptance_rate" with
   | some v => [("host_acceptance_rate_num", match v with
       | FVal.str s =>
           (match env.parseNum (s.dropRightWhile (fun c => c == '%')) with
            | some x => FVal.real (x / 100)
            | none => FVal.naT)
       | _ => FVal.naT)]
   | none => []) ++
  (match getCol r "host_listings_count" with
   | some v => [("is_professional_host", FVal.nat (match FVal.toReal v with
       | some x => if 3 < x then 1 else 0
       | none => 0))]
   | none => [])

/-- The host-quality column, computed from the frame after the status
block; a NaN component (unfilled `host_experience_capped`) propagates. -/
noncomputable def qualityPairs (r : Listing) : List (String × FVal) :=
  let comps : List (Option ℝ) :=
    (match getCol r "is_superhost_num" with
     | some v => [(FVal.toReal v).map (· * 0.4)]
     | none => []) ++
    (match getCol r "host_response_rate_num" with
     | some v => [some (((FVal.toReal v).getD 0) * 0.25)]
     | none => []) ++
    (match getCol r "is_verified_num" with
     | some v => [(FVal.toReal v).map (· * 0.2)]
     | none => []) ++
    (match getCol r "host_experience_capped" with
     | some v => [(FVal.toReal v).map (fun x => x / 5 * 0.15)]
     | none => [])
  match comps.isEmpty with
  | true => []
  | false =>
      [("host_quality_score",
        match comps.any (fun o => o.isNone) with
        | true => FVal.naT
        | false => FVal.real ((comps.filterMap id).sum))]

noncomputable def addHostFeatures (env : PandasEnv) (r : Listing) : Listing :=
  let rA := r.updMany (hostSincePairs env r)
  let rB := rA.updMany (hostPairsB env rA)
  rB.updMany (qualityPairs rB)

/-- The fixed keyword table `important_amenities`. -/
def importantAmenities : List (String × List String) :=
  [("wifi", ["wifi", "internet"]), ("parking", ["parking"]), ("pool", ["pool"]),
   ("ac", ["air conditioning", "heating"]), ("kitchen", ["kitchen"]),
   ("washer", ["washer"]), ("tv", ["tv", "cable"])]

/-- Substring test on character lists. -/
def listContainsSub (n : List Char) : List Char → Bool
  | [] => n.isEmpty
  | c :: t => n.isPrefixOf (c :: t) || listContainsSub n t

/-- Python `needle.lower() in item.lower()`. -/
def containsLower (needle hay : String) : Bool :=
  listContainsSub needle.toLower.data hay.toLower.data

/-- `_parse_amenity_string` on a cell: NaN parses to `[]`, a string goes
through the external parser, any other cell yields `[]`. -/
def parseAmenityCell (env : PandasEnv) : FVal → List String
  | FVal.naT => []
  | FVal.str s => env.parseAmenityList s
  | _ => []

/-- The amenity-list, count, per-category and per-keyword columns of
`add_amenity_features`, from the parsed amenity list. -/
noncomputable def amenityPairsA (cats : List (String × List String))
    (lst : List String) : List (String × FVal) :=
  [("amenities_list", FVal.strList lst), ("amenities_count", FVal.nat lst.length)] ++
  cats.map (fun c => ("has_" ++ c.1,
    FVal.nat (c.2.countP (fun a => lst.any (fun item => containsLower a item))))) ++
  importantAmenities.map (fun c => ("has_" ++ c.1,
    FVal.nat (if lst.any (fun item => c.2.any (fun k => containsLower k item)) then 1 else 0)))

/-- The amenity-score column, reading the `has_essential` /
`has_premium` / `has_work_friendly` columns just written. -/
noncomputable def amenityScorePairs (r : Listing) : List (String × FVal) :=
  let comps : List ℝ := [("essential", (0.3:ℝ)), ("premium", 0.5), ("work_friendly", 0.2)].filterMap
    (fun c => (getCol r ("has_" ++ c.1)).map (fun v => ((FVal.toReal v).getD 0) * c.2))
  match comps.isEmpty with
  | true => []
  | false => [("amenity_score", FVal.real comps.sum)]

noncomputable def addAmenityFeatures (cats : List (String × List String))
    (env : PandasEnv) (r : Listing) : Listing :=
  match getCol r "amenities" with
  | none => r
  | some v =>
      let rA := r.updMany (amenityPairsA cats (parseAmenityCell env v))
      rA.updMany (amenityScorePairs rA)

/-! ### The orchestrator -/

/-- The geospatial block of `create_all_features`, run only when the POI
dict is truthy. -/
noncomputable def geoFeatures (T radius : ℝ) (g : ℚ)
    (ps : List (String × List GeoPoint)) (df : List Listing) : List Listing :=
  let d1 := df.map (distStep T ps)
  let d2 := d1.map (densStep radius ps)
  let d3 := d2.map (gridStep g (d2.map Listing.toPropRow))
  let d4 := d3.map (accessStep T)
  d4.map interactStep

/-- `create_all_features`: geospatial features only when `pois` is a
non-empty dict (`if pois:` — `None` and `{}` are both falsy), then the
temporal, review and amenity engineers. -/
noncomputable def createAllFeatures (env : PandasEnv) (T radius : ℝ) (g : ℚ)
    (minReviews : ℕ) (cats : List (String × List String))
    (pois : Option (List (String × List GeoPoint))) (df : List Listing) :
    List Listing :=
  let dfg := match pois with
    | none => df
    | some [] => df
    | some (c :: ctail) => geoFeatures T radius g (c :: ctail) df
  ((dfg.map (fun r => addBookingPatterns (addSeasonalFeatures env (addDateFeatures env r)))).map
    (fun r => addHostFeatures env (addReviewFeatures minReviews r))).map
    (addAmenityFeatures cats env)

/-! ### Generic lemmas about column assignment -/

theorem lookup_none_of_any_false (m : String) (cols : List (String × FVal))
    (h : cols.any (fun p => p.1 == m) = false) : List.lookup m cols = none := by
  induction cols with
  | nil => rfl
  | cons p t ih =>
      obtain ⟨k, w⟩ := p
      rw [List.any_cons] at h
      rcases Bool.or_eq_false_iff.mp h with ⟨h1, h2⟩
      have h1' : (m == k) = false := by
        rw [beq_eq_false_iff_ne] at h1 ⊢
        exact fun he => h1 he.symm
      simp only [List.lookup, h1']
      exact ih h2

theorem lookup_append_of_none (n : String) (l₁ l₂ : List (String × FVal))
    (h : List.lookup n l₁ = none) :
    List.lookup n (l₁ ++ l₂) = List.lookup n l₂ := by
  induction l₁ with
  | nil => rfl
  | cons p t ih =>
      obtain ⟨k, w⟩ := p
      rw [List.cons_append]
      cases hnk : (n == k) with
      | true => simp [List.lookup, hnk] at h
      | false =>
          simp only [List.lookup, hnk] at h ⊢
          exact ih h

theorem lookup_append_of_some (n : String) (l₁ l₂ : List (String × FVal)) (v : FVal)
    (h : List.lookup n l₁ = some v) :
    List.lookup n (l₁ ++ l₂) = some v := by
  induction l₁ with
  | nil => simp [List.lookup] at h
  | cons p t ih =>
      obtain ⟨k, w⟩ := p
      rw [List.cons_append]
      cases hnk : (n == k) with
      | true =>
          simp only [List.lookup, hnk] at h ⊢
          exact h
      | false =>
          simp only [List.lookup, hnk] at h ⊢
          exact ih h

theorem lookup_map_update (n m : String) (v : FVal) (cols : List (String × FVal)) :
    List.lookup n (cols.map (fun p => match p.1 == m with
        | true => (m, v)
        | false => p))
      = if n = m then (if cols.any (fun p => p.1 == m) then some v else none)
        else List.lookup n cols := by
  induction cols with
  | nil => by_cases h : n = m <;> simp [h]
  | cons p t ih =>
      obtain ⟨k, w⟩ := p
      by_cases hkm : k = m
      · subst hkm
        by_cases hnk : n = k
        · subst hnk
          simp [List.lookup, ih]
        · simp [List.lookup, ih, hnk, beq_eq_false_iff_ne.mpr hnk]
      · by_cases hnk : n = k
        · subst hnk
          simp [List.lookup, ih, hkm, beq_eq_false_iff_ne.mpr hkm]
        · have hkm' : (k == m) = false := beq_eq_false_iff_ne.mpr hkm
          have hnk' : (n == k) = false := beq_eq_false_iff_ne.mpr hnk
          simp only [List.map_cons, hkm', List.lookup, hnk', List.any_cons,
            Bool.false_or]
          exact ih

theorem lookup_setCol (n m : String) (v : FVal) (cols : List (String × FVal)) :
    List.lookup n (setCol m v cols)
      = if n = m then some v else List.lookup n cols := by
  rw [setCol]
  cases hany : cols.any (fun p => p.1 == m) with
  | true =>
      rw [if_pos rfl, lookup_map_update, hany]
      by_cases hnm : n = m <;> simp [hnm]
  | false =>
      rw [if_neg Bool.false_ne_true]
      by_cases hnm : n = m
      · subst hnm
        rw [lookup_append_of_none n cols _ (lookup_none_of_any_false n cols hany)]
        simp [List.lookup]
      · rw [if_neg hnm]
        cases hl : List.lookup n cols with
        | some w => exact lookup_append_of_some n cols _ w hl
        | none =>
            rw [lookup_append_of_none n cols [(m, v)] hl]
            have h1' : (n == m) = false := beq_eq_false_iff_ne.mpr hnm
            simp only [List.lookup, h1', hl]

theorem getCol_upd (r : Listing) (n m : String) (v : FVal) :
    getCol (r.upd m v) n = if n = m then some v else getCol r n :=
  lookup_setCol n m v r.cols

theorem getCol_upd_self (r : Listing) (n : String) (v : FVal) :
    getCol (r.upd n v) n = some v := by
  rw [getCol_upd, if_pos rfl]

theorem updMany_nil (r : Listing) : r.updMany [] = r := rfl

theorem updMany_cons (r : Listing) (p : String × FVal) (t : List (String × FVal)) :
    r.updMany (p :: t) = (r.upd p.1 p.2).updMany t := rfl

theorem toPropRow_updMany (r : Listing) (l : List (String × FVal)) :
    (r.updMany l).toPropRow = r.toPropRow := by
  induction l generalizing r with
  | nil => rfl
  | cons p t ih => rw [updMany_cons, ih]; rfl

theorem getCol_updMany_not_mem (r : Listing) (l : List (String × FVal)) (n : String)
    (h : ∀ p ∈ l, p.1 ≠ n) : getCol (r.updMany l) n = getCol r n := by
  induction l generalizing r with
  | nil => rfl
  | cons p t ih =>
      rw [updMany_cons, ih _ (fun q hq => h q (List.mem_cons_of_mem p hq)),
        getCol_upd, if_neg (fun he => h p (List.mem_cons_self p t) he.symm)]

theorem getCol_updMany_bound (r : Listing) (l : List (String × FVal)) (n : String)
    (h : getCol (r.updMany l) n ≠ none) :
    getCol r n ≠ none ∨ ∃ p ∈ l, p.1 = n := by
  induction l generalizing r with
  | nil => exact Or.inl h
  | cons p t ih =>
      rw [updMany_cons] at h
      rcases ih (r.upd p.1 p.2) h with hc | ⟨q, hq, he⟩
      · rw [getCol_upd] at hc
        by_cases hnp : n = p.1
        · exact Or.inr ⟨p, List.mem_cons_self p t, hnp.symm⟩
        · rw [if_neg hnp] at hc
          exact Or.inl hc
      · exact Or.inr ⟨q, List.mem_cons_of_mem p hq, he⟩

theorem getCol_updMany_head (r : Listing) (n : String) (v : FVal)
    (t : List (String × FVal)) (h : ∀ p ∈ t, p.1 ≠ n) :
    getCol (r.updMany ((n, v) :: t)) n = some v := by
  rw [updMany_cons, getCol_updMany_not_mem _ _ _ h]
  exact getCol_upd_self r n v

theorem lookup_ne_none_iff (n : String) (cols : List (String × FVal)) :
    List.lookup n cols ≠ none ↔ ∃ p ∈ cols, p.1 = n := by
  induction cols with
  | nil => simp [List.lookup]
  | cons p t ih =>
      obtain ⟨k, w⟩ := p
      cases hnk : (n == k) with
      | true =>
          have hk : n = k := beq_iff_eq.mp hnk
          subst hk
          simp only [List.lookup, beq_self_eq_true]
          constructor
          · intro _
            exact ⟨(n, w), List.mem_cons_self _ _, rfl⟩
          · intro _
            exact Option.some_ne_none w
      | false =>
          have hk : n ≠ k := beq_eq_false_iff_ne.mp hnk
          simp only [List.lookup, hnk]
          rw [ih]
          constructor
          · rintro ⟨q, hq, he⟩
            exact ⟨q, List.mem_cons_of_mem _ hq, he⟩
          · rintro ⟨q, hq, he⟩
            rcases List.mem_cons.mp hq with rfl | hq2
            · exact absurd he.symm hk
            · exact ⟨q, hq2, he⟩

theorem lookup_applyStdFill_ne (n : String) (fill : Option ℝ)
    (cols : List (String × FVal)) (h : n ≠ "grid_price_std") :
    List.lookup n (applyStdFill fill cols) = List.lookup n cols := by
  induction cols with
  | nil => rfl
  | cons p t ih =>
      obtain ⟨k, w⟩ := p
      rw [applyStdFill, List.map_cons]
      by_cases hk : k = "grid_price_std"
      · subst hk
        have hnk : (n == "grid_price_std") = false := beq_eq_false_iff_ne.mpr h
        cases w <;>
          · simp only [beq_self_eq_true, List.lookup, hnk]
            exact ih
      · have hkk : (k == "grid_price_std") = false := beq_eq_false_iff_ne.mpr hk
        simp only [hkk, List.lookup]
        cases hnk : (n == k) with
        | true => rfl
        | false => exact ih

theorem lookup_applyStdFill_ne_none (n : String) (fill : Option ℝ)
    (cols : List (String × FVal))
    (h : List.lookup n (applyStdFill fill cols) ≠ none) :
    List.lookup n cols ≠ none := by
  by_cases hgps : n = "grid_price_std"
  · subst hgps
    induction cols with
    | nil => exact h
    | cons p t ih =>
        obtain ⟨k, w⟩ := p
        by_cases hk : k = "grid_price_std"
        · subst hk
          simp [List.lookup]
        · have hkk : (k == "grid_price_std") = false := beq_eq_false_iff_ne.mpr hk
          have hnk : ("grid_price_std" == k) = false :=
            beq_eq_false_iff_ne.mpr (fun he => hk he.symm)
          rw [applyStdFill, List.map_cons] at h
          simp only [hkk, List.lookup, hnk] at h ⊢
          exact ih h
  · rw [lookup_applyStdFill_ne n fill cols hgps] at h
    exact h

theorem lookup_mergeRight_none (n : String) (left right : List (String × FVal))
    (hr : ∀ q ∈ right, q.1 ≠ n ∧ q.1 ++ "_y" ≠ n) :
    List.lookup n (right.map (fun q =>
      match left.any (fun p => p.1 == q.1) with
      | true => (q.1 ++ "_y", q.2)
      | false => q)) = none := by
  induction right with
  | nil => rfl
  | cons q t ih =>
      obtain ⟨a, v⟩ := q
      rcases hr (a, v) (List.mem_cons_self _ _) with ⟨hne, hney⟩
      have h1 : (n == a ++ "_y") = false :=
        beq_eq_false_iff_ne.mpr (fun he => hney he.symm)
      have h2 : (n == a) = false := beq_eq_false_iff_ne.mpr (fun he => hne he.symm)
      rw [List.map_cons]
      cases hc : left.any (fun p => p.1 == a) with
      | true =>
          simp only [hc, List.lookup, h1]
          exact ih (fun q hq => hr q (List.mem_cons_of_mem _ hq))
      | false =>
          simp only [hc, List.lookup, h2]
          exact ih (fun q hq => hr q (List.mem_cons_of_mem _ hq))

theorem lookup_mergeLeft_eq (n : String) (left right : List (String × FVal))
    (hr : ∀ q ∈ right, q.1 ≠ n ∧ q.1 ++ "_x" ≠ n) :
    List.lookup n (left.map (fun p =>
      match right.any (fun q => q.1 == p.1) with
      | true => (p.1 ++ "_x", p.2)
      | false => p)) = List.lookup n left := by
  induction left with
  | nil => rfl
  | cons p t ih =>
      obtain ⟨k, w⟩ := p
      rw [List.map_cons]
      cases hc : right.any (fun q => q.1 == k) with
      | true =>
          obtain ⟨q, hq, hqk⟩ := List.any_eq_true.mp hc
          have hqk' : q.1 = k := beq_iff_eq.mp hqk
          rcases hr q hq with ⟨hne, hnex⟩
          have h1 : (n == k ++ "_x") = false := by
            rw [← hqk']
            exact beq_eq_false_iff_ne.mpr (fun he => hnex he.symm)
          have h2 : (n == k) = false := by
            rw [← hqk']
            exact beq_eq_false_iff_ne.mpr (fun he => hne he.symm)
          simp only [hc, List.lookup, h1, h2]
          exact ih
      | false =>
          simp only [hc, List.lookup]
          cases hnk : (n == k) with
          | true => rfl
          | false => exact ih

theorem lookup_mergeCols_left (n : String) (left right : List (String × FVal))
    (hr : ∀ q ∈ right, q.1 ≠ n ∧ q.1 ++ "_x" ≠ n ∧ q.1 ++ "_y" ≠ n) :
    List.lookup n (mergeCols left right) = List.lookup n left := by
  rw [mergeCols]
  have hright := lookup_mergeRight_none n left right
    (fun q hq => ⟨(hr q hq).1, (hr q hq).2.2⟩)
  have hleft := lookup_mergeLeft_eq n left right
    (fun q hq => ⟨(hr q hq).1, (hr q hq).2.1⟩)
  cases hl : List.lookup n left with
  | some w => exact lookup_append_of_some n _ _ w (hleft.trans hl)
  | none =>
      rw [lookup_append_of_none n _ _ (hleft.trans hl)]
      exact hright

theorem lookup_mergeCols_bound (n : String) (left right : List (String × FVal))
    (h : List.lookup n (mergeCols left right) ≠ none) :
    List.lookup n left ≠ none ∨
      ∃ q ∈ right, n = q.1 ∨ n = q.1 ++ "_x" ∨ n = q.1 ++ "_y" := by
  rw [lookup_ne_none_iff] at h
  rcases h with ⟨p, hp, hpn⟩
  rw [mergeCols] at hp
  rcases List.mem_append.mp hp with hp | hp
  · rcases List.mem_map.mp hp with ⟨p0, hp0, rfl⟩
    cases hc : right.any (fun q => q.1 == p0.1) with
    | true =>
        rw [hc] at hpn
        obtain ⟨q, hq, hqe⟩ := List.any_eq_true.mp hc
        refine Or.inr ⟨q, hq, Or.inr (Or.inl ?_)⟩
        rw [← hpn, beq_iff_eq.mp hqe]
    | false =>
        rw [hc] at hpn
        exact Or.inl ((lookup_ne_none_iff n left).mpr ⟨p0, hp0, hpn⟩)
  · rcases List.mem_map.mp hp with ⟨q0, hq0, rfl⟩
    cases hc : left.any (fun p => p.1 == q0.1) with
    | true =>
        rw [hc] at hpn
        exact Or.inr ⟨q0, hq0, Or.inr (Or.inr hpn.symm)⟩
    | false =>
        rw [hc] at hpn
        exact Or.inr ⟨q0, hq0, Or.inl hpn.symm⟩

/-! ### Which column names each stage assigns -/

/-- The fixed column names of the grid, score and interaction steps. -/
def geoFixedNames : List String :=
  ["grid_lat", "grid_lon", "grid_id", "grid_price_mean", "grid_price_median",
   "grid_price_std", "grid_price_count", "grid_bedrooms_mean",
   "grid_bedrooms_median", "grid_bathrooms_mean", "grid_bathrooms_median",
   "accessibility_score", "transport_score", "price_per_bedroom_accessibility",
   "bedroom_bathroom_ratio", "price_transport_interaction"]

/-- The column names the geospatial block may assign or create for POI
dict `ps`: the per-category distance/density columns, the fixed grid and
score columns, and the `_x`/`_y` suffixed variants the merge mints when
an input column collides with a grid aggregate column. -/
def geoWritten (ps : List (String × List GeoPoint)) (n : String) : Prop :=
  (∃ c ∈ ps, n = distColName c.1 ∨ n = countColName c.1) ∨ n ∈ geoFixedNames ∨
    (∃ a ∈ gridAggNames, n = a ++ "_x" ∨ n = a ++ "_y")

def dateNames : List String :=
  ["current_date", "month", "day_of_week", "is_weekend", "month_sin",
   "month_cos", "day_sin", "day_cos"]

def seasonalNames : List String := ["month", "season", "is_high_season", "quarter"]

def bookingNames : List String :=
  ["occupancy_rate_30", "occupancy_rate_60", "occupancy_rate_90",
   "recent_demand", "popularity_score"]

def reviewNames : List String :=
  ["rating_normalized", "has_enough_reviews", "reviews_log",
   "avg_detailed_rating", "rating_consistency", "rating_quality",
   "trust_score", "review_frequency"]

def hostSinceNames : List String :=
  ["host_since", "host_experience_days", "host_experience_years",
   "host_experience_capped"]

def hostBNames : List String :=
  ["is_superhost_num", "is_verified_num", "host_response_rate_num",
   "host_acceptance_rate_num", "is_professional_host"]

def hostNames : List String :=
  hostSinceNames ++ hostBNames ++ ["host_quality_score"]

def amenityFixedNames : List String :=
  ["amenities_list", "amenities_count", "amenity_score", "has_wifi",
   "has_parking", "has_pool", "has_ac", "has_kitchen", "has_washer", "has_tv"]

/-- The column names `add_amenity_features` may assign for amenity-category
configuration `cats`. -/
def amenityWritten (cats : List (String × List String)) (n : String) : Prop :=
  n ∈ amenityFixedNames ∨ ∃ c ∈ cats, n = "has_" ++ c.1

/-- The fixed column names of the temporal, review, host and amenity
engineers. -/
def tabFixedNames : List String :=
  dateNames ++ seasonalNames ++ bookingNames ++ reviewNames ++ hostNames ++
    amenityFixedNames

/-- The column names the temporal/review/amenity engineers may assign. -/
def tabWritten (cats : List (String × List String)) (n : String) : Prop :=
  n ∈ tabFixedNames ∨ ∃ c ∈ cats, n = "has_" ++ c.1

/-- All column names `create_all_features` may assign. -/
def writtenCol (cats : List (String × List String))
    (ps : List (String × List GeoPoint)) (n : String) : Prop :=
  geoWritten ps n ∨ tabWritten cats n

theorem frame_of_names (r : Listing) (l : List (String × FVal)) (n : String)
    (P : String → Prop) (hl : ∀ p ∈ l, P p.1) (hn : ¬ P n) :
    getCol (r.updMany l) n = getCol r n :=
  getCol_updMany_not_mem r l n (fun p hp he => hn (he ▸ hl p hp))

theorem bound_of_names (r : Listing) (l : List (String × FVal)) (n : String)
    (P : String → Prop) (hl : ∀ p ∈ l, P p.1)
    (h : getCol (r.updMany l) n ≠ none) :
    getCol r n ≠ none ∨ P n := by
  rcases getCol_updMany_bound r l n h with hc | ⟨p, hp, he⟩
  · exact Or.inl hc
  · exact Or.inr (he ▸ hl p hp)

theorem distPairs_names (T : ℝ) (ps : List (String × List GeoPoint)) (r : Listing) :
    ∀ p ∈ distPairs T ps r, geoWritten ps p.1 := by
  intro p hp
  rw [distPairs] at hp
  rcases List.mem_map.mp hp with ⟨c, hc, rfl⟩
  exact Or.inl ⟨c, hc, Or.inl rfl⟩

theorem densPairs_names (radius : ℝ) (ps : List (String × List GeoPoint)) (r : Listing) :
    ∀ p ∈ densPairs radius ps r, geoWritten ps p.1 := by
  intro p hp
  rw [densPairs] at hp
  rcases List.mem_map.mp hp with ⟨c, hc, rfl⟩
  exact Or.inl ⟨c, hc, Or.inr rfl⟩

theorem aggPairs_names (g : ℚ) (base : List PropRow) (r : PropRow) :
    ∀ p ∈ aggPairs g base r, p.1 ∈ gridAggNames := by
  intro p hp
  simp only [aggPairs, List.mem_cons, List.not_mem_nil, or_false] at hp
  rcases hp with rfl|rfl|rfl|rfl|rfl|rfl|rfl|rfl <;> simp [gridAggNames]

theorem gridAggNames_sub_geoFixed : ∀ a ∈ gridAggNames, a ∈ geoFixedNames := by
  decide

theorem accessPairs_names (T : ℝ) (r : Listing) :
    ∀ p ∈ accessPairs T r, p.1 ∈ geoFixedNames := by
  intro p hp
  simp only [accessPairs, List.mem_cons, List.not_mem_nil, or_false] at hp
  rcases hp with rfl|rfl <;> simp [geoFixedNames]

theorem interactPairs_names (r : Listing) :
    ∀ p ∈ interactPairs r, p.1 ∈ geoFixedNames := by
  intro p hp
  rw [interactPairs] at hp
  rcases List.mem_append.mp hp with hp | hp
  · rcases List.mem_append.mp hp with hp | hp
    · cases h1 : getCol r "price_per_bedroom" with
      | none => rw [h1] at hp; simp at hp
      | some a =>
          cases h2 : getCol r "accessibility_score" with
          | none => rw [h1, h2] at hp; simp at hp
          | some b =>
              rw [h1, h2] at hp
              simp only [List.mem_singleton] at hp
              subst hp
              simp [geoFixedNames]
    · simp only [List.mem_singleton] at hp
      subst hp
      simp [geoFixedNames]
  · cases h3 : getCol r "dist_nearest_subway_km" with
    | none => rw [h3] at hp; simp at hp
    | some v =>
        rw [h3] at hp
        simp only [List.mem_singleton] at hp
        subst hp
        simp [geoFixedNames]

theorem datePairs_names (env : PandasEnv) :
    ∀ p ∈ datePairs env, p.1 ∈ dateNames := by
  intro p hp
  simp only [datePairs, List.mem_cons, List.not_mem_nil, or_false] at hp
  rcases hp with rfl|rfl|rfl|rfl|rfl|rfl|rfl|rfl <;> simp [dateNames]

theorem seasonalPairs_names (env : PandasEnv) (r : Listing) :
    ∀ p ∈ seasonalPairs env r, p.1 ∈ seasonalNames := by
  intro p hp
  simp only [seasonalPairs, List.mem_cons, List.not_mem_nil, or_false] at hp
  rcases hp with rfl|rfl|rfl <;> simp [seasonalNames]

theorem bookingPairs_names (r : Listing) :
    ∀ p ∈ bookingPairs r, p.1 ∈ bookingNames := by
  intro p hp
  rw [bookingPairs] at hp
  rcases List.mem_append.mp hp with hp | hp
  · rcases List.mem_append.mp hp with hp | hp
    · rcases List.mem_append.mp hp with hp | hp
      · rcases List.mem_append.mp hp with hp | hp
        · cases h1 : getCol r "availability_30" with
          | none => rw [h1] at hp; simp at hp
          | some v =>
              rw [h1] at hp
              simp only [List.mem_singleton] at hp
              subst hp
              simp [bookingNames]
        · cases h1 : getCol r "availability_60" with
          | none => rw [h1] at hp; simp at hp
          | some v =>
              rw [h1] at hp
              simp only [List.mem_singleton] at hp
              subst hp
              simp [bookingNames]
      · cases h1 : getCol r "availability_90" with
        | none => rw [h1] at hp; simp at hp
        | some v =>
            rw [h1] at hp
            simp only [List.mem_singleton] at hp
            subst hp
            simp [bookingNames]
    · cases h1 : getCol r "reviews_per_month" with
      | none => rw [h1] at hp; simp at hp
      | some v =>
          rw [h1] at hp
          simp only [List.mem_singleton] at hp
          subst hp
          simp [bookingNames]
  · cases h1 : getCol r "number_of_reviews" with
    | none => rw [h1] at hp; simp at hp
    | some a =>
        cases h2 : getCol r "reviews_per_month" with
        | none => rw [h1, h2] at hp; simp at hp
        | some b =>
            rw [h1, h2] at hp
            simp only [List.mem_singleton] at hp
            subst hp
            simp [bookingNames]

theorem mem_match_bool {α : Type} (b : Bool) (l₁ l₂ : List α) (p : α)
    (hp : p ∈ (match b with | true => l₁ | false => l₂)) : p ∈ l₁ ∨ p ∈ l₂ := by
  cases b
  · exact Or.inr hp
  · exact Or.inl hp

theorem reviewPairsA_names (minReviews : ℕ) (r : Listing) :
    ∀ p ∈ reviewPairsA minReviews r, p.1 ∈ reviewNames := by
  intro p hp
  rw [reviewPairsA] at hp
  rcases List.mem_append.mp hp with hp | hp
  · rcases List.mem_append.mp hp with hp | hp
    · cases h1 : getCol r "review_scores_rating" with
      | none => rw [h1] at hp; simp at hp
      | some v =>
          rw [h1] at hp
          simp only [List.mem_singleton] at hp
          subst hp
          simp [reviewNames]
    · cases h1 : getCol r "number_of_reviews" with
      | none => rw [h1] at hp; simp at hp
      | some v =>
          rw [h1] at hp
          simp only [List.mem_cons, List.not_mem_nil, or_false] at hp
          rcases hp with rfl | rfl <;> simp [reviewNames]
  · rcases mem_match_bool _ _ _ p hp with hp | hp
    · simp at hp
    · simp only [List.mem_cons, List.not_mem_nil, or_false] at hp
      rcases hp with rfl|rfl|rfl <;> simp [reviewNames]

theorem trustPairs_names (r : Listing) :
    ∀ p ∈ trustPairs r, p.1 ∈ reviewNames := by
  intro p hp
  simp only [trustPairs] at hp
  rcases List.mem_append.mp hp with hp | hp
  · rcases mem_match_bool _ _ _ p hp with hp | hp
    · simp at hp
    · simp only [List.mem_singleton] at hp
      subst hp
      simp [reviewNames]
  · cases h1 : getCol r "reviews_per_month" with
    | none => rw [h1] at hp; simp at hp
    | some v =>
        rw [h1] at hp
        simp only [List.mem_singleton] at hp
        subst hp
        simp [reviewNames]

theorem hostSincePairs_names (env : PandasEnv) (r : Listing) :
    ∀ p ∈ hostSincePairs env r, p.1 ∈ hostSinceNames := by
  intro p hp
  rw [hostSincePairs] at hp
  cases h1 : getCol r "host_since" with
  | none => rw [h1] at hp; simp at hp
  | some v =>
      rw [h1] at hp
      simp only [List.mem_cons] at hp
      rcases hp with rfl | hp
      · simp [hostSinceNames]
      · cases hhs : toDatetimeCoerce env v <;>
          · rw [hhs] at hp
            simp only [List.mem_cons, List.not_mem_nil, or_false] at hp
            rcases hp with rfl|rfl|rfl <;> simp [hostSinceNames]

theorem hostPairsB_names (env : PandasEnv) (r : Listing) :
    ∀ p ∈ hostPairsB env r, p.1 ∈ hostBNames := by
  intro p hp
  rw [hostPairsB] at hp
  rcases List.mem_append.mp hp with hp | hp
  · rcases List.mem_append.mp hp with hp | hp
    · rcases List.mem_append.mp hp with hp | hp
      · rcases List.mem_append.mp hp with hp | hp
        · cases h1 : getCol r "host_is_superhost" with
          | none => rw [h1] at hp; simp at hp
          | some v =>
              rw [h1] at hp
              simp only [List.mem_singleton] at hp
              subst hp
              simp [hostBNames]
        · cases h1 : getCol r "host_identity_verified" with
          | none => rw [h1] at hp; simp at hp
          | some v =>
              rw [h1] at hp
              simp only [List.mem_singleton] at hp
              subst hp
              simp [hostBNames]
      · cases h1 : getCol r "host_response_rate" with
        | none => rw [h1] at hp; simp at hp
        | some v =>
            rw [h1] at hp
            simp only [List.mem_singleton] at hp
            subst hp
            simp [hostBNames]
    · cases h1 : getCol r "host_acceptance_rate" with
      | none => rw [h1] at hp; simp at hp
      | some v =>
          rw [h1] at hp
          simp only [List.mem_singleton] at hp
          subst hp
          simp [hostBNames]
  · cases h1 : getCol r "host_listings_count" with
    | none => rw [h1] at hp; simp at hp
    | some v =>
        rw [h1] at hp
        simp only [List.mem_singleton] at hp
        subst hp
        simp [hostBNames]

theorem qualityPairs_names (r : Listing) :
    ∀ p ∈ qualityPairs r, p.1 = "host_quality_score" := by
  intro p hp
  simp only [qualityPairs] at hp
  rcases mem_match_bool _ _ _ p hp with hp | hp
  · simp at hp
  · simp only [List.mem_singleton] at hp
    subst hp
    rfl

theorem amenityPairsA_names (cats : List (String × List String)) (lst : List String) :
    ∀ p ∈ amenityPairsA cats lst, amenityWritten cats p.1 := by
  intro p hp
  rw [amenityPairsA] at hp
  rcases List.mem_append.mp hp with hp | hp
  · rcases List.mem_append.mp hp with hp | hp
    · simp only [List.mem_cons, List.not_mem_nil, or_false] at hp
      rcases hp with rfl | rfl <;> exact Or.inl (by simp [amenityFixedNames])
    · rcases List.mem_map.mp hp with ⟨c, hc, rfl⟩
      exact Or.inr ⟨c, hc, rfl⟩
  · rcases List.mem_map.mp hp with ⟨c, hc, rfl⟩
    left
    fin_cases hc <;> simp [amenityFixedNames]

theorem amenityScorePairs_names (r : Listing) :
    ∀ p ∈ amenityScorePairs r, p.1 = "amenity_score" := by
  intro p hp
  simp only [amenityScorePairs] at hp
  rcases mem_match_bool _ _ _ p hp with hp | hp
  · simp at hp
  · simp only [List.mem_singleton] at hp
    subst hp
    rfl

/-! ### Per-stage frame, bound and base-field lemmas -/

theorem distColName_ne_host_since (s : String) : distColName s ≠ "host_since" := by
  intro h
  have hd := congrArg String.data h
  rw [distColName, String.data_append] at hd
  simp at hd

theorem countColName_ne_host_since (s : String) : countColName s ≠ "host_since" := by
  intro h
  have hd := congrArg String.data h
  rw [countColName, String.data_append] at hd
  simp at hd

theorem not_geoWritten_host_since (ps : List (String × List GeoPoint)) :
    ¬ geoWritten ps "host_since" := by
  rintro (⟨c, _, h | h⟩ | h)
  · exact distColName_ne_host_since c.1 h.symm
  · exact countColName_ne_host_since c.1 h.symm
  · revert h
    decide

theorem distStep_frame (T : ℝ) (ps : List (String × List GeoPoint)) (r : Listing)
    (n : String) (h : ¬ geoWritten ps n) : getCol (distStep T ps r) n = getCol r n :=
  frame_of_names r _ n (geoWritten ps) (distPairs_names T ps r) h

theorem distStep_bound (T : ℝ) (ps : List (String × List GeoPoint)) (r : Listing)
    (n : String) (h : getCol (distStep T ps r) n ≠ none) :
    getCol r n ≠ none ∨ geoWritten ps n :=
  bound_of_names r _ n (geoWritten ps) (distPairs_names T ps r) h

theorem distStep_base (T : ℝ) (ps : List (String × List GeoPoint)) (r : Listing) :
    (distStep T ps r).toPropRow = r.toPropRow :=
  toPropRow_updMany r _

theorem densStep_frame (radius : ℝ) (ps : List (String × List GeoPoint)) (r : Listing)
    (n : String) (h : ¬ geoWritten ps n) : getCol (densStep radius ps r) n = getCol r n :=
  frame_of_names r _ n (geoWritten ps) (densPairs_names radius ps r) h

theorem densStep_bound (radius : ℝ) (ps : List (String × List GeoPoint)) (r : Listing)
    (n : String) (h : getCol (densStep radius ps r) n ≠ none) :
    getCol r n ≠ none ∨ geoWritten ps n :=
  bound_of_names r _ n (geoWritten ps) (densPairs_names radius ps r) h

theorem densStep_base (radius : ℝ) (ps : List (String × List GeoPoint)) (r : Listing) :
    (densStep radius ps r).toPropRow = r.toPropRow :=
  toPropRow_updMany r _

theorem gridStep_frame (g : ℚ) (base : List PropRow) (r : Listing) (n : String)
    (h1 : n ∉ geoFixedNames)
    (h2 : ∀ a ∈ gridAggNames, n ≠ a ++ "_x" ∧ n ≠ a ++ "_y") :
    getCol (gridStep g base r) n = getCol r n := by
  have hgps : n ≠ "grid_price_std" := fun he => h1 (by rw [he]; decide)
  have hr : ∀ q ∈ aggPairs g base r.toPropRow,
      q.1 ≠ n ∧ q.1 ++ "_x" ≠ n ∧ q.1 ++ "_y" ≠ n := by
    intro q hq
    have hqa := aggPairs_names g base r.toPropRow q hq
    exact ⟨fun he => h1 (by rw [← he]; exact gridAggNames_sub_geoFixed q.1 hqa),
      fun he => (h2 q.1 hqa).1 he.symm,
      fun he => (h2 q.1 hqa).2 he.symm⟩
  simp only [gridStep, getCol, Listing.upd]
  rw [lookup_applyStdFill_ne n _ _ hgps, lookup_mergeCols_left n _ _ hr,
    lookup_setCol, if_neg (fun he : n = "grid_id" => h1 (by rw [he]; decide)),
    lookup_setCol, if_neg (fun he : n = "grid_lon" => h1 (by rw [he]; decide)),
    lookup_setCol, if_neg (fun he : n = "grid_lat" => h1 (by rw [he]; decide))]

theorem gridStep_bound (g : ℚ) (base : List PropRow) (r : Listing) (n : String)
    (h : getCol (gridStep g base r) n ≠ none) :
    getCol r n ≠ none ∨ n ∈ geoFixedNames ∨
      ∃ a ∈ gridAggNames, n = a ++ "_x" ∨ n = a ++ "_y" := by
  simp only [gridStep, getCol, Listing.upd] at h
  have h2 := lookup_applyStdFill_ne_none n _ _ h
  rcases lookup_mergeCols_bound n _ _ h2 with h3 | ⟨q, hq, hcase⟩
  · by_cases e1 : n = "grid_id"
    · exact Or.inr (Or.inl (by rw [e1]; decide))
    · rw [lookup_setCol, if_neg e1] at h3
      by_cases e2 : n = "grid_lon"
      · exact Or.inr (Or.inl (by rw [e2]; decide))
      · rw [lookup_setCol, if_neg e2] at h3
        by_cases e3 : n = "grid_lat"
        · exact Or.inr (Or.inl (by rw [e3]; decide))
        · rw [lookup_setCol, if_neg e3] at h3
          exact Or.inl h3
  · have hqa := aggPairs_names g base r.toPropRow q hq
    rcases hcase with he | he | he
    · exact Or.inr (Or.inl (by rw [he]; exact gridAggNames_sub_geoFixed q.1 hqa))
    · exact Or.inr (Or.inr ⟨q.1, hqa, Or.inl he⟩)
    · exact Or.inr (Or.inr ⟨q.1, hqa, Or.inr he⟩)

theorem gridStep_base (g : ℚ) (base : List PropRow) (r : Listing) :
    (gridStep g base r).toPropRow = r.toPropRow := rfl

theorem accessStep_frame (T : ℝ) (r : Listing) (n : String)
    (h : n ∉ geoFixedNames) : getCol (accessStep T r) n = getCol r n := by
  rw [accessStep]
  cases (distCols r).isEmpty with
  | true => rfl
  | false => exact frame_of_names r _ n (· ∈ geoFixedNames) (accessPairs_names T r) h

theorem accessStep_bound (T : ℝ) (r : Listing) (n : String)
    (h : getCol (accessStep T r) n ≠ none) :
    getCol r n ≠ none ∨ n ∈ geoFixedNames := by
  rw [accessStep] at h
  revert h
  cases (distCols r).isEmpty with
  | true => exact fun h => Or.inl h
  | false => exact fun h => bound_of_names r _ n (· ∈ geoFixedNames) (accessPairs_names T r) h

theorem accessStep_base (T : ℝ) (r : Listing) :
    (accessStep T r).toPropRow = r.toPropRow := by
  rw [accessStep]
  cases (distCols r).isEmpty with
  | true => rfl
  | false => exact toPropRow_updMany r _

theorem interactStep_frame (r : Listing) (n : String)
    (h : n ∉ geoFixedNames) : getCol (interactStep r) n = getCol r n :=
  frame_of_names r _ n (· ∈ geoFixedNames) (interactPairs_names r) h

theorem interactStep_bound (r : Listing) (n : String)
    (h : getCol (interactStep r) n ≠ none) :
    getCol r n ≠ none ∨ n ∈ geoFixedNames :=
  bound_of_names r _ n (· ∈ geoFixedNames) (interactPairs_names r) h

theorem interactStep_base (r : Listing) :
    (interactStep r).toPropRow = r.toPropRow :=
  toPropRow_updMany r _

theorem addDateFeatures_frame (env : PandasEnv) (r : Listing) (n : String)
    (h : n ∉ dateNames) : getCol (addDateFeatures env r) n = getCol r n :=
  frame_of_names r _ n (· ∈ dateNames) (fun p hp => datePairs_names env p hp) h

theorem addDateFeatures_bound (env : PandasEnv) (r : Listing) (n : String)
    (h : getCol (addDateFeatures env r) n ≠ none) :
    getCol r n ≠ none ∨ n ∈ dateNames :=
  bound_of_names r _ n (· ∈ dateNames) (fun p hp => datePairs_names env p hp) h

theorem addDateFeatures_base (env : PandasEnv) (r : Listing) :
    (addDateFeatures env r).toPropRow = r.toPropRow :=
  toPropRow_updMany r _

theorem addSeasonalFeatures_frame (env : PandasEnv) (r : Listing) (n : String)
    (h : n ∉ seasonalNames) : getCol (addSeasonalFeatures env r) n = getCol r n := by
  have hmonth : n ≠ "month" := fun he => h (by rw [he]; simp [seasonalNames])
  rw [addSeasonalFeatures]
  cases hasCol r "month" with
  | true =>
      exact frame_of_names r _ n (· ∈ seasonalNames) (seasonalPairs_names env r) h
  | false =>
      rw [frame_of_names _ _ n (· ∈ seasonalNames)
        (seasonalPairs_names env _) h, getCol_upd, if_neg hmonth]

theorem addSeasonalFeatures_bound (env : PandasEnv) (r : Listing) (n : String)
    (h : getCol (addSeasonalFeatures env r) n ≠ none) :
    getCol r n ≠ none ∨ n ∈ seasonalNames := by
  rw [addSeasonalFeatures] at h
  revert h
  cases hasCol r "month" with
  | true =>
      exact fun h => bound_of_names r _ n (· ∈ seasonalNames) (seasonalPairs_names env r) h
  | false =>
      intro h
      rcases bound_of_names _ _ n (· ∈ seasonalNames) (seasonalPairs_names env _) h with
        hc | hc
      · rw [getCol_upd] at hc
        by_cases hm : n = "month"
        · exact Or.inr (by rw [hm]; simp [seasonalNames])
        · rw [if_neg hm] at hc
          exact Or.inl hc
      · exact Or.inr hc

theorem addSeasonalFeatures_base (env : PandasEnv) (r : Listing) :
    (addSeasonalFeatures env r).toPropRow = r.toPropRow := by
  rw [addSeasonalFeatures]
  cases hasCol r "month" with
  | true => exact toPropRow_updMany r _
  | false => exact toPropRow_updMany _ _

theorem addBookingPatterns_frame (r : Listing) (n : String)
    (h : n ∉ bookingNames) : getCol (addBookingPatterns r) n = getCol r n :=
  frame_of_names r _ n (· ∈ bookingNames) (bookingPairs_names r) h

theorem addBookingPatterns_bound (r : Listing) (n : String)
    (h : getCol (addBookingPatterns r) n ≠ none) :
    getCol r n ≠ none ∨ n ∈ bookingNames :=
  bound_of_names r _ n (· ∈ bookingNames) (bookingPairs_names r) h

theorem addBookingPatterns_base (r : Listing) :
    (addBookingPatterns r).toPropRow = r.toPropRow :=
  toPropRow_updMany r _

theorem addReviewFeatures_frame (minReviews : ℕ) (r : Listing) (n : String)
    (h : n ∉ reviewNames) : getCol (addReviewFeatures minReviews r) n = getCol r n := by
  simp only [addReviewFeatures]
  rw [frame_of_names _ _ n (· ∈ reviewNames) (trustPairs_names _) h,
    frame_of_names _ _ n (· ∈ reviewNames) (reviewPairsA_names minReviews r) h]

theorem addReviewFeatures_bound (minReviews : ℕ) (r : Listing) (n : String)
    (h : getCol (addReviewFeatures minReviews r) n ≠ none) :
    getCol r n ≠ none ∨ n ∈ reviewNames := by
  simp only [addReviewFeatures] at h
  rcases bound_of_names _ _ n (· ∈ reviewNames) (trustPairs_names _) h with h2 | h2
  · exact bound_of_names _ _ n (· ∈ reviewNames) (reviewPairsA_names minReviews r) h2
  · exact Or.inr h2

theorem addReviewFeatures_base (minReviews : ℕ) (r : Listing) :
    (addReviewFeatures minReviews r).toPropRow = r.toPropRow := by
  simp only [addReviewFeatures]
  rw [toPropRow_updMany, toPropRow_updMany]

theorem addHostFeatures_frame (env : PandasEnv) (r : Listing) (n : String)
    (h : n ∉ hostNames) : getCol (addHostFeatures env r) n = getCol r n := by
  have hA : n ∉ hostSinceNames := fun hm => h (by rw [hostNames]; simp [hm])
  have hB : n ∉ hostBNames := fun hm => h (by rw [hostNames]; simp [hm])
  have hQ : ¬ n = "host_quality_score" := fun hm => h (by rw [hostNames]; simp [hm])
  simp only [addHostFeatures]
  rw [frame_of_names _ _ n (· = "host_quality_score") (qualityPairs_names _) hQ,
    frame_of_names _ _ n (· ∈ hostBNames) (hostPairsB_names env _) hB,
    frame_of_names _ _ n (· ∈ hostSinceNames) (hostSincePairs_names env r) hA]

theorem addHostFeatures_bound (env : PandasEnv) (r : Listing) (n : String)
    (h : getCol (addHostFeatures env r) n ≠ none) :
    getCol r n ≠ none ∨ n ∈ hostNames := by
  simp only [addHostFeatures] at h
  rcases bound_of_names _ _ n (· = "host_quality_score") (qualityPairs_names _) h with
    h2 | h2
  · rcases bound_of_names _ _ n (· ∈ hostBNames) (hostPairsB_names env _) h2 with h3 | h3
    · rcases bound_of_names _ _ n (· ∈ hostSinceNames) (hostSincePairs_names env r) h3 with
        h4 | h4
      · exact Or.inl h4
      · exact Or.inr (by rw [hostNames]; simp [h4])
    · exact Or.inr (by rw [hostNames]; simp [h3])
  · exact Or.inr (by rw [hostNames]; simp [h2])

theorem addHostFeatures_base (env : PandasEnv) (r : Listing) :
    (addHostFeatures env r).toPropRow = r.toPropRow := by
  simp only [addHostFeatures]
  rw [toPropRow_updMany, toPropRow_updMany, toPropRow_updMany]

theorem addAmenityFeatures_frame (cats : List (String × List String))
    (env : PandasEnv) (r : Listing) (n : String)
    (h : ¬ amenityWritten cats n) : getCol (addAmenityFeatures cats env r) n = getCol r n := by
  have hScore : ¬ n = "amenity_score" :=
    fun hm => h (Or.inl (by rw [hm]; simp [amenityFixedNames]))
  rw [addAmenityFeatures]
  cases ha : getCol r "amenities" with
  | none => rfl
  | some v =>
      rw [frame_of_names _ _ n (· = "amenity_score") (amenityScorePairs_names _) hScore,
        frame_of_names _ _ n (amenityWritten cats) (amenityPairsA_names cats _) h]

theorem addAmenityFeatures_bound (cats : List (String × List String))
    (env : PandasEnv) (r : Listing) (n : String)
    (h : getCol (addAmenityFeatures cats env r) n ≠ none) :
    getCol r n ≠ none ∨ amenityWritten cats n := by
  rw [addAmenityFeatures] at h
  revert h
  cases ha : getCol r "amenities" with
  | none => exact fun h => Or.inl h
  | some v =>
      intro h
      rcases bound_of_names _ _ n (· = "amenity_score") (amenityScorePairs_names _) h with
        h2 | h2
      · exact bound_of_names _ _ n (amenityWritten cats) (amenityPairsA_names cats _) h2
      · exact Or.inr (Or.inl (by rw [h2]; simp [amenityFixedNames]))

theorem addAmenityFeatures_base (cats : List (String × List String))
    (env : PandasEnv) (r : Listing) :
    (addAmenityFeatures cats env r).toPropRow = r.toPropRow := by
  rw [addAmenityFeatures]
  cases ha : getCol r "amenities" with
  | none => rfl
  | some v => rw [toPropRow_updMany, toPropRow_updMany]

/-! ### The per-row pipeline composites -/

/-- The temporal, review and amenity engineers applied to one row, in
the order of `create_all_features`. -/
noncomputable def tabRow (env : PandasEnv) (minReviews : ℕ)
    (cats : List (String × List String)) (r : Listing) : Listing :=
  addAmenityFeatures cats env (addHostFeatures env (addReviewFeatures minReviews
    (addBookingPatterns (addSeasonalFeatures env (addDateFeatures env r)))))

/-- The five geospatial steps applied to one row. -/
noncomputable def geoRow (T radius : ℝ) (g : ℚ) (base : List PropRow)
    (ps : List (String × List GeoPoint)) (r : Listing) : Listing :=
  interactStep (accessStep T (gridStep g base (densStep radius ps (distStep T ps r))))

theorem tabRow_frame (env : PandasEnv) (minReviews : ℕ)
    (cats : List (String × List String)) (r : Listing) (n : String)
    (hn : ¬ tabWritten cats n) :
    getCol (tabRow env minReviews cats r) n = getCol r n := by
  have hfix : n ∉ tabFixedNames := fun hm => hn (Or.inl hm)
  have hd : n ∉ dateNames := fun hm => hfix (by rw [tabFixedNames]; simp [hm])
  have hs : n ∉ seasonalNames := fun hm => hfix (by rw [tabFixedNames]; simp [hm])
  have hb : n ∉ bookingNames := fun hm => hfix (by rw [tabFixedNames]; simp [hm])
  have hr : n ∉ reviewNames := fun hm => hfix (by rw [tabFixedNames]; simp [hm])
  have hh : n ∉ hostNames := fun hm => hfix (by rw [tabFixedNames]; simp [hm])
  have ham : ¬ amenityWritten cats n := by
    rintro (hm | hm)
    · exact hfix (by rw [tabFixedNames]; simp [hm])
    · exact hn (Or.inr hm)
  rw [tabRow, addAmenityFeatures_frame cats env _ n ham,
    addHostFeatures_frame env _ n hh, addReviewFeatures_frame minReviews _ n hr,
    addBookingPatterns_frame _ n hb, addSeasonalFeatures_frame env _ n hs,
    addDateFeatures_frame env r n hd]

theorem tabRow_bound (env : PandasEnv) (minReviews : ℕ)
    (cats : List (String × List String)) (r : Listing) (n : String)
    (h : getCol (tabRow env minReviews cats r) n ≠ none) :
    getCol r n ≠ none ∨ tabWritten cats n := by
  rw [tabRow] at h
  rcases addAmenityFeatures_bound cats env _ n h with h2 | h2
  · rcases addHostFeatures_bound env _ n h2 with h3 | h3
    · rcases addReviewFeatures_bound minReviews _ n h3 with h4 | h4
      · rcases addBookingPatterns_bound _ n h4 with h5 | h5
        · rcases addSeasonalFeatures_bound env _ n h5 with h6 | h6
          · rcases addDateFeatures_bound env r n h6 with h7 | h7
            · exact Or.inl h7
            · exact Or.inr (Or.inl (by rw [tabFixedNames]; simp [h7]))
          · exact Or.inr (Or.inl (by rw [tabFixedNames]; simp [h6]))
        · exact Or.inr (Or.inl (by rw [tabFixedNames]; simp [h5]))
      · exact Or.inr (Or.inl (by rw [tabFixedNames]; simp [h4]))
    · exact Or.inr (Or.inl (by rw [tabFixedNames]; simp [h3]))
  · rcases h2 with hm | hm
    · exact Or.inr (Or.inl (by rw [tabFixedNames]; simp [hm]))
    · exact Or.inr (Or.inr hm)

theorem tabRow_base (env : PandasEnv) (minReviews : ℕ)
    (cats : List (String × List String)) (r : Listing) :
    (tabRow env minReviews cats r).toPropRow = r.toPropRow := by
  rw [tabRow, addAmenityFeatures_base, addHostFeatures_base, addReviewFeatures_base,
    addBookingPatterns_base, addSeasonalFeatures_base, addDateFeatures_base]

theorem addHostFeatures_host_since (env : PandasEnv) (r : Listing) (v : FVal)
    (h : getCol r "host_since" = some v) :
    getCol (addHostFeatures env r) "host_since" = some (toDatetimeCoerce env v) := by
  simp only [addHostFeatures]
  rw [frame_of_names _ _ _ (· = "host_quality_score") (qualityPairs_names _)
      (by decide),
    frame_of_names _ _ _ (· ∈ hostBNames) (hostPairsB_names env _) (by decide)]
  rw [hostSincePairs, h]
  refine getCol_updMany_head r _ _ _ ?_
  intro p hp
  cases hhs : toDatetimeCoerce env v <;>
    · rw [hhs] at hp
      simp only [List.mem_cons, List.not_mem_nil, or_false] at hp
      rcases hp with rfl|rfl|rfl <;> simp

theorem tabRow_host_since (env : PandasEnv) (minReviews : ℕ)
    (cats : List (String × List String)) (r : Listing) (v : FVal)
    (h : getCol r "host_since" = some v) :
    getCol (tabRow env minReviews cats r) "host_since"
      = some (toDatetimeCoerce env v) := by
  have ham : ¬ amenityWritten cats "host_since" := by
    rintro (hm | ⟨c, _, hm⟩)
    · revert hm
      decide
    · have hd := congrArg String.data hm
      rw [String.data_append] at hd
      simp at hd
  rw [tabRow, addAmenityFeatures_frame cats env _ _ ham,
    addHostFeatures_host_since env _ v]
  rw [addReviewFeatures_frame minReviews _ _ (by decide),
    addBookingPatterns_frame _ _ (by decide),
    addSeasonalFeatures_frame env _ _ (by decide),
    addDateFeatures_frame env r _ (by decide)]
  exact h

theorem geoRow_frame (T radius : ℝ) (g : ℚ) (base : List PropRow)
    (ps : List (String × List GeoPoint)) (r : Listing) (n : String)
    (hn : ¬ geoWritten ps n) :
    getCol (geoRow T radius g base ps r) n = getCol r n := by
  have hfix : n ∉ geoFixedNames := fun hm => hn (Or.inr (Or.inl hm))
  have hsuf : ∀ a ∈ gridAggNames, n ≠ a ++ "_x" ∧ n ≠ a ++ "_y" := by
    intro a ha
    exact ⟨fun he => hn (Or.inr (Or.inr ⟨a, ha, Or.inl he⟩)),
      fun he => hn (Or.inr (Or.inr ⟨a, ha, Or.inr he⟩))⟩
  rw [geoRow, interactStep_frame _ n hfix, accessStep_frame T _ n hfix,
    gridStep_frame g base _ n hfix hsuf, densStep_frame radius ps _ n hn,
    distStep_frame T ps r n hn]

theorem geoRow_bound (T radius : ℝ) (g : ℚ) (base : List PropRow)
    (ps : List (String × List GeoPoint)) (r : Listing) (n : String)
    (h : getCol (geoRow T radius g base ps r) n ≠ none) :
    getCol r n ≠ none ∨ geoWritten ps n := by
  rw [geoRow] at h
  rcases interactStep_bound _ n h with h2 | h2
  · rcases accessStep_bound T _ n h2 with h3 | h3
    · rcases gridStep_bound g base _ n h3 with h4 | h4 | h4
      · rcases densStep_bound radius ps _ n h4 with h5 | h5
        · rcases distStep_bound T ps r n h5 with h6 | h6
          · exact Or.inl h6
          · exact Or.inr h6
        · exact Or.inr h5
      · exact Or.inr (Or.inr (Or.inl h4))
      · exact Or.inr (Or.inr (Or.inr h4))
    · exact Or.inr (Or.inr (Or.inl h3))
  · exact Or.inr (Or.inr (Or.inl h2))

theorem geoRow_base (T radius : ℝ) (g : ℚ) (base : List PropRow)
    (ps : List (String × List GeoPoint)) (r : Listing) :
    (geoRow T radius g base ps r).toPropRow = r.toPropRow := by
  rw [geoRow, interactStep_base, accessStep_base, gridStep_base, densStep_base,
    distStep_base]

theorem geoRow_host_since (T radius : ℝ) (g : ℚ) (base : List PropRow)
    (ps : List (String × List GeoPoint)) (r : Listing) :
    getCol (geoRow T radius g base ps r) "host_since" = getCol r "host_since" :=
  geoRow_frame T radius g base ps r _ (not_geoWritten_host_since ps)

/-! ### The orchestrator, row by row

The per-stage lemmas above are all that the whole-table theorems need;
the stage bodies themselves are opaque from here on (this only limits
definitional unfolding during elaboration — every later proof goes
through the equational lemmas). -/

attribute [irreducible] setCol Listing.upd Listing.updMany
  distPairs densPairs aggPairs mergeCols applyStdFill accessPairs interactPairs datePairs
  seasonalPairs bookingPairs reviewPairsA trustPairs hostSincePairs
  hostPairsB qualityPairs amenityPairsA amenityScorePairs
  distStep densStep gridStep accessStep interactStep
  addDateFeatures addSeasonalFeatures addBookingPatterns addReviewFeatures
  addHostFeatures addAmenityFeatures tabRow geoRow

theorem geoFeatures_length (T radius : ℝ) (g : ℚ)
    (ps : List (String × List GeoPoint)) (df : List Listing) :
    (geoFeatures T radius g ps df).length = df.length := by
  rw [geoFeatures]
  simp only [List.length_map]

theorem geoFeatures_getElem (T radius : ℝ) (g : ℚ)
    (ps : List (String × List GeoPoint)) (df : List Listing) (i : ℕ) :
    (geoFeatures T radius g ps df)[i]?
      = (df[i]?).map (geoRow T radius g
          (((df.map (distStep T ps)).map (densStep radius ps)).map Listing.toPropRow) ps) := by
  rw [geoFeatures]
  simp only [List.getElem?_map]
  cases df[i]? with
  | none => rfl
  | some r =>
      simp only [Option.map_some']
      rw [geoRow]

theorem createAllFeatures_length (env : PandasEnv) (T radius : ℝ) (g : ℚ)
    (minReviews : ℕ) (cats : List (String × List String))
    (pois : Option (List (String × List GeoPoint))) (df : List Listing) :
    (createAllFeatures env T radius g minReviews cats pois df).length = df.length := by
  match pois with
  | none => rw [createAllFeatures]; simp only [List.length_map]
  | some [] => rw [createAllFeatures]; simp only [List.length_map]
  | some (c :: ctail) =>
      rw [createAllFeatures]
      simp only [List.length_map, geoFeatures_length]

theorem createAllFeatures_getElem_none (env : PandasEnv) (T radius : ℝ) (g : ℚ)
    (minReviews : ℕ) (cats : List (String × List String)) (df : List Listing) (i : ℕ) :
    (createAllFeatures env T radius g minReviews cats none df)[i]?
      = (df[i]?).map (tabRow env minReviews cats) := by
  rw [createAllFeatures]
  simp only [List.getElem?_map]
  cases df[i]? with
  | none => rfl
  | some r =>
      simp only [Option.map_some']
      rw [tabRow]

theorem createAllFeatures_getElem_some_nil (env : PandasEnv) (T radius : ℝ) (g : ℚ)
    (minReviews : ℕ) (cats : List (String × List String)) (df : List Listing) (i : ℕ) :
    (createAllFeatures env T radius g minReviews cats (some []) df)[i]?
      = (df[i]?).map (tabRow env minReviews cats) := by
  rw [createAllFeatures]
  simp only [List.getElem?_map]
  cases df[i]? with
  | none => rfl
  | some r =>
      simp only [Option.map_some']
      rw [tabRow]

theorem createAllFeatures_getElem_some (env : PandasEnv) (T radius : ℝ) (g : ℚ)
    (minReviews : ℕ) (cats : List (String × List String))
    (c : String × List GeoPoint) (ctail : List (String × List GeoPoint))
    (df : List Listing) (i : ℕ) :
    (createAllFeatures env T radius g minReviews cats (some (c :: ctail)) df)[i]?
      = (df[i]?).map (fun r => tabRow env minReviews cats
          (geoRow T radius g
            (((df.map (distStep T (c :: ctail))).map (densStep radius (c :: ctail))).map
              Listing.toPropRow) (c :: ctail) r)) := by
  rw [createAllFeatures]
  simp only [List.getElem?_map, geoFeatures_getElem]
  cases df[i]? with
  | none => rfl
  | some r =>
      simp only [Option.map_some']
      rw [tabRow]

/-! ## C9: the pipeline as a frame -/

/-- C9 (amended): `create_all_features` builds a new table of the same
row count and row order; every row keeps its
latitude/longitude/price/bedrooms/bathrooms values; an input attribute
column whose name is not among the column names the pipeline assigns is
carried through unchanged, and every output column either existed on the
input row or is a pipeline-assigned column — but an input `host_since`
column is overwritten with its `pd.to_datetime(..., errors='coerce')`
parse rather than carried through. -/
theorem C9_pipeline_frame (env : PandasEnv) (T radius : ℝ) (g : ℚ) (minReviews : ℕ)
    (cats : List (String × List String))
    (pois : Option (List (String × List GeoPoint))) (df : List Listing) :
    (createAllFeatures env T radius g minReviews cats pois df).length = df.length ∧
    (∀ i : ℕ, ((createAllFeatures env T radius g minReviews cats pois df)[i]?).map
        Listing.toPropRow = (df[i]?).map Listing.toPropRow) ∧
    (∀ i : ℕ, ∀ r r' : Listing, df[i]? = some r →
      (createAllFeatures env T radius g minReviews cats pois df)[i]? = some r' →
      (∀ n, ¬ writtenCol cats (pois.getD []) n → getCol r' n = getCol r n) ∧
      (∀ n, getCol r' n ≠ none → getCol r n ≠ none ∨ writtenCol cats (pois.getD []) n) ∧
      (∀ v, getCol r "host_since" = some v →
        getCol r' "host_since" = some (toDatetimeCoerce env v))) := by
  refine ⟨createAllFeatures_length env T radius g minReviews cats pois df, ?_, ?_⟩
  · intro i
    match pois with
    | none =>
        rw [createAllFeatures_getElem_none]
        cases df[i]? with
        | none => rfl
        | some r => simp only [Option.map_some', tabRow_base]
    | some [] =>
        rw [createAllFeatures_getElem_some_nil]
        cases df[i]? with
        | none => rfl
        | some r => simp only [Option.map_some', tabRow_base]
    | some (c :: ctail) =>
        rw [createAllFeatures_getElem_some]
        cases df[i]? with
        | none => rfl
        | some r => simp only [Option.map_some', tabRow_base, geoRow_base]
  · intro i r r' hdf hout
    match pois with
    | none =>
        rw [createAllFeatures_getElem_none, hdf, Option.map_some'] at hout
        have hr' : r' = tabRow env minReviews cats r := (Option.some.inj hout).symm
        subst hr'
        refine ⟨?_, ?_, ?_⟩
        · intro n hn
          exact tabRow_frame env minReviews cats r n (fun hm => hn (Or.inr hm))
        · intro n h
          rcases tabRow_bound env minReviews cats r n h with hc | hc
          · exact Or.inl hc
          · exact Or.inr (Or.inr hc)
        · intro v hv
          exact tabRow_host_since env minReviews cats r v hv
    | some [] =>
        rw [createAllFeatures_getElem_some_nil, hdf, Option.map_some'] at hout
        have hr' : r' = tabRow env minReviews cats r := (Option.some.inj hout).symm
        subst hr'
        refine ⟨?_, ?_, ?_⟩
        · intro n hn
          exact tabRow_frame env minReviews cats r n (fun hm => hn (Or.inr hm))
        · intro n h
          rcases tabRow_bound env minReviews cats r n h with hc | hc
          · exact Or.inl hc
          · exact Or.inr (Or.inr hc)
        · intro v hv
          exact tabRow_host_since env minReviews cats r v hv
    | some (c :: ctail) =>
        rw [createAllFeatures_getElem_some, hdf, Option.map_some'] at hout
        have hr' : r' = tabRow env minReviews cats
            (geoRow T radius g
              (((df.map (distStep T (c :: ctail))).map (densStep radius (c :: ctail))).map
                Listing.toPropRow) (c :: ctail) r) := (Option.some.inj hout).symm
        subst hr'
        refine ⟨?_, ?_, ?_⟩
        · intro n hn
          rw [tabRow_frame env minReviews cats _ n (fun hm => hn (Or.inr hm))]
          exact geoRow_frame T radius g _ _ r n (fun hm => hn (Or.inl hm))
        · intro n h
          rcases tabRow_bound env minReviews cats _ n h with hc | hc
          · rcases geoRow_bound T radius g _ _ r n hc with hc2 | hc2
            · exact Or.inl hc2
            · exact Or.inr (Or.inl hc2)
          · exact Or.inr (Or.inr hc)
        · intro v hv
          refine tabRow_host_since env minReviews cats _ v ?_
          rw [geoRow_host_since]
          exact hv

/-- The external datetime/parsing layer of the concrete counterexample
run: a fixed day, and parsers on which the string `"not a date"` is
unparseable (so `pd.to_datetime(..., errors='coerce')` yields `NaT`);
the numeric-cell epoch parse is never reached by the string-valued
counterexample cell. -/
def env0 : PandasEnv :=
  ⟨0, 1, 2, fun _ => none, fun _ => none, fun _ => none, fun _ => []⟩

/-- C9 counterexample: a one-row table carrying a `host_since` attribute
whose value is the string `"not a date"`. The pipeline (with no POIs)
returns a row whose `host_since` column is `NaT` — the input field value
is not carried through unchanged. -/
theorem C9_counterexample :
    ((createAllFeatures env0 10 1 (1/100) 5 [] none
        [⟨0, 0, 100, 1, 1, [("host_since", FVal.str "not a date")]⟩])[0]?).map
      (fun r => getCol r "host_since") = some (some FVal.naT) ∧
    some FVal.naT ≠ some (FVal.str "not a date") := by
  constructor
  · rw [createAllFeatures_getElem_none]
    rw [show ([⟨0, 0, 100, 1, 1, [("host_since", FVal.str "not a date")]⟩] :
        List Listing)[0]? = some ⟨0, 0, 100, 1, 1, [("host_since", FVal.str "not a date")]⟩
      from rfl]
    rw [Option.map_some', Option.map_some']
    rw [tabRow_host_since env0 5 []
      ⟨0, 0, 100, 1, 1, [("host_since", FVal.str "not a date")]⟩
      (FVal.str "not a date") rfl]
    rfl
  · simp

/-! ## C10: a falsy POI dict skips all geospatial columns -/

theorem tabFixedNames_not_geo :
    ∀ n ∈ tabFixedNames, strStartsWith n "dist_nearest_" = false ∧
      strStartsWith n "count_" = false ∧ strStartsWith n "grid_" = false ∧
      n ≠ "accessibility_score" ∧ n ≠ "transport_score" ∧
      n ≠ "price_per_bedroom_accessibility" ∧ n ≠ "bedroom_bathroom_ratio" ∧
      n ≠ "price_transport_interaction" := by decide

theorem has_name_not_geo (s : String) :
    strStartsWith ("has_" ++ s) "dist_nearest_" = false ∧
      strStartsWith ("has_" ++ s) "count_" = false ∧
      strStartsWith ("has_" ++ s) "grid_" = false ∧
      ("has_" ++ s) ≠ "accessibility_score" ∧ ("has_" ++ s) ≠ "transport_score" ∧
      ("has_" ++ s) ≠ "price_per_bedroom_accessibility" ∧
      ("has_" ++ s) ≠ "bedroom_bathroom_ratio" ∧
      ("has_" ++ s) ≠ "price_transport_interaction" := by
  refine ⟨?_, ?_, ?_, ?_, ?_, ?_, ?_, ?_⟩
  · rw [strStartsWith, String.data_append]
    simp [List.isPrefixOf]
  · rw [strStartsWith, String.data_append]
    simp [List.isPrefixOf]
  · rw [strStartsWith, String.data_append]
    simp [List.isPrefixOf]
  all_goals
    intro h
    have hd := congrArg String.data h
    rw [String.data_append] at hd
    simp at hd

/-- C10: when the POI dict passed to `create_all_features` is `None` or
an empty dict, the geospatial block is skipped entirely — the output is
exactly the temporal, review and amenity engineers applied row-wise —
and those engineers never assign a geospatial column: every output
column either already existed on the input row or bears a
temporal/review/amenity name, and no such name is a `dist_nearest_*`,
`count_*`, `grid_*`, accessibility/transport score or interaction
column. -/
theorem C10_no_pois_no_geo_columns (env : PandasEnv) (T radius : ℝ) (g : ℚ)
    (minReviews : ℕ) (cats : List (String × List String)) (df : List Listing) :
    (∀ i : ℕ, (createAllFeatures env T radius g minReviews cats none df)[i]?
        = (df[i]?).map (tabRow env minReviews cats)) ∧
    (∀ i : ℕ, (createAllFeatures env T radius g minReviews cats (some []) df)[i]?
        = (df[i]?).map (tabRow env minReviews cats)) ∧
    (∀ r n, getCol (tabRow env minReviews cats r) n ≠ none →
        getCol r n ≠ none ∨ tabWritten cats n) ∧
    (∀ n, tabWritten cats n →
        strStartsWith n "dist_nearest_" = false ∧
        strStartsWith n "count_" = false ∧ strStartsWith n "grid_" = false ∧
        n ≠ "accessibility_score" ∧ n ≠ "transport_score" ∧
        n ≠ "price_per_bedroom_accessibility" ∧ n ≠ "bedroom_bathroom_ratio" ∧
        n ≠ "price_transport_interaction") := by
  refine ⟨createAllFeatures_getElem_none env T radius g minReviews cats df,
    createAllFeatures_getElem_some_nil env T radius g minReviews cats df,
    fun r n => tabRow_bound env minReviews cats r n, ?_⟩
  rintro n (hfix | ⟨c, _, rfl⟩)
  · exact tabFixedNames_not_geo n hfix
  · exact has_name_not_geo c.1

end AluguelSeBr
